import Mathlib

/-!
LiquidCrystal_PCF8574: HD44780 character LCD behind a PCF8574 I2C expander.

A shallow embedding of `src/LiquidCrystal_PCF8574.cpp`.  The device object and
the function-local static `i2cDataState` become one explicit `State`; the
calls into the `Wire` library and `delayMicroseconds` are recorded, in program
order, in the `bus` field of that state.

Integer conventions.  A C++ parameter or local of type `byte` / `uint8_t` is a
natural number reduced `% 256` where it is bound.  The member variables are
declared in `LiquidCrystal_PCF8574.h`, which is not part of the sources; see
`State` for how they are represented.
-/

namespace LiquidCrystal_PCF8574

/-! ## Constants -/

/-- Bit mask of the register-select line (`#define PCF_RS 0x01`). -/
def PCF_RS : Nat := 0x01

/-- Bit mask of the read/write line (`#define PCF_RW 0x02`); never used. -/
def PCF_RW : Nat := 0x02

/-- Bit mask of the enable line (`#define PCF_EN 0x04`). -/
def PCF_EN : Nat := 0x04

/-- Bit mask of the backlight line (`#define PCF_BACKLIGHT 0x08`). -/
def PCF_BACKLIGHT : Nat := 0x08

/-- Arduino's `HIGH` (0x1), as a `bool`. -/
def HIGH : Bool := true

/-- Local table `byte row_offsets[] = {0x00, 0x40, 0x14, 0x54}` of `setCursorLCD`. -/
def row_offsets : List Nat := [0x00, 0x40, 0x14, 0x54]

/-! ## Data model -/

/-- One call into the external collaborators (`Wire`, `delayMicroseconds`). -/
inductive BusEvent
  | wireBegin
  | beginTransmission (addr : Int)
  | write (data : Nat)
  | endTransmission
  | delayMicroseconds (us : Nat)
  deriving DecidableEq, Repr

/-- Ways in which the C++ code has no defined result. -/
inductive Fault
  | divisionByZero
  | indexOutOfBounds
  | outOfFuel
  deriving DecidableEq, Repr

/-- Modelled from the spec: the class declaration (`LiquidCrystal_PCF8574.h`) is
missing, so the member types are taken from section 3 of the spec, which gives
columns, lines, cursor row, cursor column and backlight level as integers.
`_i2cAddr`, `_backlight`, `_cols` and `_lines` are assigned from `int`
arguments and are integers here.  `_row`, `_col`, `_entrymode` and
`_displaycontrol` only ever receive `byte` values, non-negative constants,
increments and bit operations, so they are natural numbers.
`i2cDataState` is the `static bool` local to `_writePCF`; `bus` is the log of
collaborator calls, oldest first. -/
structure State where
  _i2cAddr : Int
  _backlight : Int
  _cols : Int
  _lines : Int
  _entrymode : Nat
  _displaycontrol : Nat
  _row : Nat
  _col : Nat
  i2cDataState : Bool
  bus : List BusEvent
  deriving DecidableEq, Repr

/-- Modelled from the spec: the header's default argument of `_send` and
`_sendNibble` (calls such as `_send(0x01)` omit `isData`).  Section 4 of the
spec has every such call be a command, i.e. `isData = false`. -/
def isDataDefault : Bool := false

/-- The C++ expression `x & ~m` on a non-negative integer `x`: the bits of `m`
are cleared in `x`, whatever the width of `x`. -/
def andNot (x m : Nat) : Nat := x ^^^ (x &&& m)

/-! ## Collaborator calls -/

/-- Records `Wire.begin()`. -/
def Wire_begin (s : State) : State :=
  { s with bus := s.bus ++ [BusEvent.wireBegin] }

/-- Records `Wire.beginTransmission(addr)`. -/
def Wire_beginTransmission (s : State) (addr : Int) : State :=
  { s with bus := s.bus ++ [BusEvent.beginTransmission addr] }

/-- Records `Wire.write(data)`. -/
def Wire_write (s : State) (data : Nat) : State :=
  { s with bus := s.bus ++ [BusEvent.write data] }

/-- Records `Wire.endTransmission()`. -/
def Wire_endTransmission (s : State) : State :=
  { s with bus := s.bus ++ [BusEvent.endTransmission] }

/-- Records `delayMicroseconds(us)`. -/
def delayMicroseconds (s : State) (us : Nat) : State :=
  { s with bus := s.bus ++ [BusEvent.delayMicroseconds us] }

/-! ## Transport -/

/-- The frame byte `i2cData` that `_writePCF` builds from its arguments. -/
def i2cData (backlight : Int) (halfByte : Nat) (isData : Bool) : Nat :=
  let d := ((halfByte % 256) <<< 4) % 256
  let d := if 0 < backlight then d ||| PCF_BACKLIGHT else d
  if isData then d ||| PCF_RS else d

/-- `void _writePCF(byte halfByte, bool isData)`. -/
def _writePCF (s : State) (halfByte : Nat) (isData : Bool) : State :=
  let d := i2cData s._backlight halfByte isData
  let s := if s.i2cDataState != isData then
      Wire_write { s with i2cDataState := isData } d
    else s
  let s := Wire_write s (d ||| PCF_EN)
  Wire_write s d

/-- `void _send(byte value, bool isData)`. -/
def _send (s : State) (value : Nat) (isData : Bool) : State :=
  let value := value % 256
  let s := Wire_beginTransmission s s._i2cAddr
  let s := _writePCF s (value >>> 4) isData
  let s := _writePCF s (value &&& 0x0F) isData
  Wire_endTransmission s

/-- `void _sendNibble(byte halfByte, bool isData)`. -/
def _sendNibble (s : State) (halfByte : Nat) (isData : Bool) : State :=
  let s := Wire_beginTransmission s s._i2cAddr
  let s := _writePCF s halfByte isData
  Wire_endTransmission s

/-- `inline void writeLCD(uint8_t ch)`. -/
def writeLCD (s : State) (ch : Nat) : State :=
  _send s (ch % 256) true

/-! ## Display state operations -/

set_option linter.dupNamespace false in
/-- Constructor `LiquidCrystal_PCF8574(int i2cAddr)`.  It assigns four members
and leaves the others (`_cols`, `_lines`, `_row`, `_col`) as they are found,
which is what `raw` stands for. -/
def LiquidCrystal_PCF8574 (raw : State) (i2cAddr : Int) : State :=
  { raw with
    _i2cAddr := i2cAddr
    _backlight := 0
    _entrymode := 0x02
    _displaycontrol := 0x04 }

/-- `void clear()`: clear and full re-initialisation. -/
def clear (s : State) : State :=
  let s := _send s 0x01 isDataDefault
  let s := _sendNibble s 0x02 isDataDefault
  let s := delayMicroseconds s 2000
  let functionFlags : Nat := if 1 < s._lines then 0x08 else 0
  let s := _send s (0x24 ||| functionFlags) isDataDefault
  let s := _send s (0x04 ||| s._entrymode) isDataDefault
  let s := _send s (0x08 ||| s._displaycontrol) isDataDefault
  let s := _send s 0x01 isDataDefault
  let s := delayMicroseconds s 2000
  { s with _row := 0, _col := 0 }

/-- `void init()`. -/
def init (s : State) : State :=
  clear s

/-- `void setCursorLCD(byte col, byte row)`.  The two `%=` fault on a zero
divisor and the table access faults outside its four entries. -/
def setCursorLCD (s : State) (col row : Nat) : Except Fault State :=
  let col := col % 256
  let row := row % 256
  if s._cols = 0 then Except.error Fault.divisionByZero
  else
    let col := (Int.tmod (col : Int) s._cols).toNat % 256
    if s._lines = 0 then Except.error Fault.divisionByZero
    else
      let row := (Int.tmod (row : Int) s._lines).toNat % 256
      match row_offsets[row]? with
      | none => Except.error Fault.indexOutOfBounds
      | some offset =>
        let s := _send s (0x80 ||| (offset + col)) isDataDefault
        Except.ok { s with _col := col, _row := row }

/-- `void setCursor(byte col, byte row)`: update the LCD only if needed. -/
def setCursor (s : State) (col row : Nat) : Except Fault State :=
  let col := col % 256
  let row := row % 256
  if s._col ≠ col ∨ s._row ≠ row then setCursorLCD s col row
  else Except.ok s

/-- `void home()`. -/
def home (s : State) : Except Fault State :=
  setCursor s 0 0

/-- `void noDisplay()`. -/
def noDisplay (s : State) : State :=
  let s := { s with _displaycontrol := andNot s._displaycontrol 0x04 }
  _send s (0x08 ||| s._displaycontrol) isDataDefault

/-- `void display()`. -/
def display (s : State) : State :=
  let s := { s with _displaycontrol := s._displaycontrol ||| 0x04 }
  _send s (0x08 ||| s._displaycontrol) isDataDefault

/-- `void cursor()`. -/
def cursor (s : State) : State :=
  let s := { s with _displaycontrol := s._displaycontrol ||| 0x01 }
  _send s (0x08 ||| s._displaycontrol) isDataDefault

/-- `void noCursor()`. -/
def noCursor (s : State) : State :=
  let s := { s with _displaycontrol := andNot s._displaycontrol 0x01 }
  _send s (0x08 ||| s._displaycontrol) isDataDefault

/-- `void blink()`. -/
def blink (s : State) : State :=
  let s := { s with _displaycontrol := s._displaycontrol ||| 0x01 }
  _send s (0x08 ||| s._displaycontrol) isDataDefault

/-- `void noBlink()`. -/
def noBlink (s : State) : State :=
  let s := { s with _displaycontrol := andNot s._displaycontrol 0x01 }
  _send s (0x08 ||| s._displaycontrol) isDataDefault

/-- `void scrollDisplayLeft(void)`. -/
def scrollDisplayLeft (s : State) : State :=
  _send s (0x10 ||| 0x08 ||| 0x00) isDataDefault

/-- `void scrollDisplayRight(void)`. -/
def scrollDisplayRight (s : State) : State :=
  _send s (0x10 ||| 0x08 ||| 0x04) isDataDefault

/-- `void leftToRight(void)`. -/
def leftToRight (s : State) : State :=
  let s := { s with _entrymode := s._entrymode ||| 0x02 }
  _send s (0x04 ||| s._entrymode) isDataDefault

/-- `void rightToLeft(void)`. -/
def rightToLeft (s : State) : State :=
  let s := { s with _entrymode := andNot s._entrymode 0x02 }
  _send s (0x04 ||| s._entrymode) isDataDefault

/-- `void autoscroll(void)`. -/
def autoscroll (s : State) : State :=
  let s := { s with _entrymode := s._entrymode ||| 0x01 }
  _send s (0x04 ||| s._entrymode) isDataDefault

/-- `void noAutoscroll(void)`. -/
def noAutoscroll (s : State) : State :=
  let s := { s with _entrymode := andNot s._entrymode 0x01 }
  _send s (0x04 ||| s._entrymode) isDataDefault

/-- `void setBacklight(int brightness)`. -/
def setBacklight (s : State) (brightness : Int) : State :=
  let s := { s with _backlight := brightness }
  _send s 0x00 false

/-- `void begin(int cols, int lines)`. -/
def begin (s : State) (cols lines : Int) : State :=
  let s := { s with _cols := cols, _lines := lines }
  let s := Wire_begin s
  let s := { s with _displaycontrol := 0x04 }
  let s := { s with _entrymode := 0x02 }
  let s := clear s
  let s := display s
  leftToRight s

/-- Body of the loop of `createChar`: `writeLCD(charmap[i])`, the `int` element
converted to `uint8_t`; reading past the end of `charmap` is a fault. -/
def createCharStep (charmap : List Int) (s : State) (i : Nat) : Except Fault State :=
  match charmap[i]? with
  | none => Except.error Fault.indexOutOfBounds
  | some v => Except.ok (writeLCD s (v % 256).toNat)

/-- `void createChar(int location, int charmap[])`.  On a two's-complement
`int`, `location &= 0x7` is the residue of `location` modulo 8. -/
def createChar (s : State) (location : Int) (charmap : List Int) : Except Fault State :=
  let location : Nat := (location % 8).toNat
  let s := _send s (0x40 ||| (location <<< 3)) isDataDefault
  (List.range 8).foldlM (createCharStep charmap) s

/-- The loop `for (byte N = _col; N < _cols; N++) writeLCD(' ');` of `write`,
with `N` the current counter.  Each iteration uses one unit of `fuel`. -/
def fillLoop : Nat → State → Nat → Except Fault State
  | 0, _, _ => Except.error Fault.outOfFuel
  | fuel + 1, s, N =>
    if (N : Int) < s._cols then fillLoop fuel (writeLCD s 0x20) ((N + 1) % 256)
    else Except.ok s

/-- `size_t write(uint8_t ch)`; the result pairs the new state with the
returned count.  `fuel` bounds the iterations of the fill loop of case 0x03. -/
def write (fuel : Nat) (s : State) (ch : Nat) : Except Fault (State × Nat) :=
  match ch % 256 with
  | 0x01 => Except.ok (clear s, 1)
  | 0x02 => (home s).map fun s => (s, 1)
  | 0x03 =>
    (fillLoop fuel s (s._col % 256)).bind fun s =>
      (setCursorLCD s s._col s._row).map fun s => (s, 1)
  | 0x0D => (setCursorLCD s 0 s._row).map fun s => (s, 1)
  | 0x0A => (setCursorLCD s s._col (s._row + 1)).map fun s => (s, 1)
  | ch =>
    let s := writeLCD s ch
    let s := { s with _col := s._col + 1 }
    if s._cols ≤ (s._col : Int) then
      (setCursorLCD s 0 (s._row + 1)).map fun s => (s, 1)
    else Except.ok (s, 1)

/-! ## Public operations as data -/

/-- The public operations of the device, `begin` apart, with their arguments. -/
inductive Op
  | clear
  | init
  | home
  | setCursor (col row : Nat)
  | noDisplay
  | display
  | cursor
  | noCursor
  | blink
  | noBlink
  | scrollDisplayLeft
  | scrollDisplayRight
  | leftToRight
  | rightToLeft
  | autoscroll
  | noAutoscroll
  | setBacklight (brightness : Int)
  | createChar (location : Int) (charmap : List Int)
  | write (ch : Nat)
  deriving DecidableEq, Repr

/-- Runs one public operation on the device. -/
def perform (fuel : Nat) (s : State) : Op → Except Fault State
  | Op.clear => Except.ok (clear s)
  | Op.init => Except.ok (init s)
  | Op.home => home s
  | Op.setCursor col row => setCursor s col row
  | Op.noDisplay => Except.ok (noDisplay s)
  | Op.display => Except.ok (display s)
  | Op.cursor => Except.ok (cursor s)
  | Op.noCursor => Except.ok (noCursor s)
  | Op.blink => Except.ok (blink s)
  | Op.noBlink => Except.ok (noBlink s)
  | Op.scrollDisplayLeft => Except.ok (scrollDisplayLeft s)
  | Op.scrollDisplayRight => Except.ok (scrollDisplayRight s)
  | Op.leftToRight => Except.ok (leftToRight s)
  | Op.rightToLeft => Except.ok (rightToLeft s)
  | Op.autoscroll => Except.ok (autoscroll s)
  | Op.noAutoscroll => Except.ok (noAutoscroll s)
  | Op.setBacklight brightness => Except.ok (setBacklight s brightness)
  | Op.createChar location charmap => createChar s location charmap
  | Op.write ch => (write fuel s ch).map fun r => r.1

/-- `write` applied to each byte of a string in turn, as `Print::print` does. -/
def writeAll (fuel : Nat) (s : State) : List Nat → Except Fault State
  | [] => Except.ok s
  | ch :: rest => (write fuel s ch).bind fun r => writeAll fuel r.1 rest

/-! ## Derived notions used to state the properties -/

/-- The circular-addressing predicate: the stored cursor lies inside the stored
geometry, `_row < _lines` and `_col < _cols`. -/
def cursorInRange (s : State) : Prop :=
  (s._row : Int) < s._lines ∧ (s._col : Int) < s._cols

instance (s : State) : Decidable (cursorInRange s) := by
  unfold cursorInRange
  infer_instance

/-- The events that `s'` has logged beyond those of `s`. -/
def emitted (s s' : State) : List BusEvent :=
  s'.bus.drop s.bus.length

/-- The frame of nibble `n` written with words of the spec:
`(n << 4) | (backlight > 0 ? 0x08 : 0) | (isData ? 0x01 : 0)`. -/
def frame (backlight : Int) (n : Nat) (isData : Bool) : Nat :=
  (n <<< 4) ||| (if 0 < backlight then 0x08 else 0) ||| (if isData then 0x01 else 0)

/-- The stable-level write that precedes the strobe when the register-select
level changes: `[f]` when `isData` differs from the stored flag, else nothing. -/
def preWrite (last isData : Bool) (f : Nat) : List Nat :=
  if isData ≠ last then [f] else []

/-- The bytes written to the bus within a list of events, in order. -/
def writesOf (evs : List BusEvent) : List Nat :=
  evs.filterMap fun e =>
    match e with
    | BusEvent.write b => some b
    | _ => none

/-- Whether the writes of one call start with a stable-level pre-write: the
first byte written has the enable bit clear, so it precedes the first
enable-high write. -/
def stablePreWrite (evs : List BusEvent) : Bool :=
  match writesOf evs with
  | [] => false
  | w :: _ => w &&& PCF_EN == 0

/-- A device as it is after construction at address 0x27 followed by
`begin(16, 2)`, all members zero beforehand. -/
def sampleState : State :=
  begin (LiquidCrystal_PCF8574 ⟨0, 0, 0, 0, 0, 0, 0, 0, HIGH, []⟩ 0x27) 16 2

/-- Number of bus transactions (`beginTransmission` calls) within a list of
events; every `_send` and every `_sendNibble` opens exactly one. -/
def transactions (evs : List BusEvent) : Nat :=
  evs.countP fun e =>
    match e with
    | BusEvent.beginTransmission _ => true
    | _ => false

/-- `setCursor(col, row); setCursor(col, row);` -/
def setCursorTwice (s : State) (col row : Nat) : Except Fault State :=
  (setCursor s col row).bind fun s => setCursor s col row

/-- The device fresh from `begin(16, 2)` after `setCursor(5, 1)`: cursor in row 1,
column 5 (`midState_reached`). -/
def midState : State :=
  { _send sampleState (0x80 ||| (0x40 + 5)) false with _col := 5, _row := 1 }

/-- Side conditions under which an operation is sure to return.  `createChar`
reads eight entries of its pattern; the fill loop of `write(0x03)` counts in a
`byte`, which reaches `_cols` only when `columns <= 255`. -/
def hasResult (columns : Nat) : Op → Prop
  | Op.createChar _ charmap => 8 ≤ charmap.length
  | Op.write ch => ch % 256 = 0x03 → columns ≤ 255
  | _ => True

/-- The four strobe writes of one byte `v`: high nibble with enable high, then
low; low nibble with enable high, then low. -/
def strobes (backlight : Int) (v : Nat) (isData : Bool) : List Nat :=
  [frame backlight (v >>> 4) isData ||| 0x04, frame backlight (v >>> 4) isData,
   frame backlight (v &&& 0x0F) isData ||| 0x04, frame backlight (v &&& 0x0F) isData]

/-- Bus events of one full two-nibble send of the byte `v` on a device whose
register-select line was last at level `last`: one transaction holding the
pre-write (only when `isData` differs from `last`) and the four strobe writes. -/
def sendEvents (last : Bool) (addr backlight : Int) (v : Nat) (isData : Bool) :
    List BusEvent :=
  [BusEvent.beginTransmission addr]
    ++ (preWrite last isData (frame backlight (v >>> 4) isData)
        ++ strobes backlight v isData).map BusEvent.write
    ++ [BusEvent.endTransmission]

/-- Bus events of a single-nibble send of `n`: one transaction holding the
pre-write (only when `isData` differs from `last`) and one strobe. -/
def nibbleEvents (last : Bool) (addr backlight : Int) (n : Nat) (isData : Bool) :
    List BusEvent :=
  [BusEvent.beginTransmission addr]
    ++ (preWrite last isData (frame backlight n isData)
        ++ [frame backlight n isData ||| 0x04, frame backlight n isData]).map BusEvent.write
    ++ [BusEvent.endTransmission]

/-- What the spec says `home()` is, in its own words: `setCursor(0, 0)`. -/
def homeSpec (s : State) : Except Fault State :=
  setCursor s 0 0

/-- Reading state of the receiving side of the bus: the bytes written so far in
the transaction being read (`none` outside a transaction), and the bytes
received so far, oldest first, each with its register-select level. -/
structure Decoder where
  pending : Option (List Nat)
  received : List (Bool × Nat)
  deriving DecidableEq, Repr

/-- The byte that a finished transaction delivers: its two enable-high writes
carry the high and the low nibble, and the register-select bit of the first
tells data (`true`) from command (`false`).  A transaction with another number
of strobes delivers no byte. -/
def delivered (ws : List Nat) : Option (Bool × Nat) :=
  match ws.filter (fun w => decide (w &&& PCF_EN ≠ 0)) with
  | [h, l] => some (decide (h &&& PCF_RS ≠ 0), ((h >>> 4) <<< 4) ||| (l >>> 4))
  | _ => none

/-- Reads one bus event.  The end of a transaction appends the byte it
delivered, if any, to the bytes received. -/
def Decoder.step (d : Decoder) : BusEvent → Decoder
  | BusEvent.beginTransmission _ => { d with pending := some [] }
  | BusEvent.write b => { d with pending := d.pending.map fun ws => ws ++ [b] }
  | BusEvent.endTransmission =>
    match d.pending.bind delivered with
    | some c => { pending := none, received := d.received ++ [c] }
    | none => { d with pending := none }
  | _ => d

/-- The bytes that a bus log delivers, oldest first, each with its
register-select level (`true` for data, `false` for a command). -/
def received (evs : List BusEvent) : List (Bool × Nat) :=
  (evs.foldl Decoder.step { pending := none, received := [] }).received

/-- The Set-DDRAM-address command bytes of a bus log, oldest first: the
commands of the form `0x80 | a`. -/
def addressCommands (evs : List BusEvent) : List Nat :=
  ((received evs).filter fun c => !c.1 && decide (0x80 ≤ c.2)).map Prod.snd

/-- The last Set-DDRAM-address command byte in a bus log, if there is one. -/
def lastAddress (evs : List BusEvent) : Option Nat :=
  (addressCommands evs).getLast?

/-- The states reachable from `begin(columns, lines)`, called on any device, by
any sequence of public operations that return. -/
inductive Reachable (columns lines : Nat) : State → Prop
  | start (raw : State) : Reachable columns lines (begin raw columns lines)
  | step (fuel : Nat) (op : Op) (s s' : State) :
      Reachable columns lines s → perform fuel s op = Except.ok s' →
      Reachable columns lines s'

/-- A byte that `write` treats as a glyph: none of 0x01, 0x02, 0x03, `\n`, `\r`. -/
def isGlyph (ch : Nat) : Prop :=
  ch % 256 ≠ 0x01 ∧ ch % 256 ≠ 0x02 ∧ ch % 256 ≠ 0x03 ∧ ch % 256 ≠ 0x0A ∧ ch % 256 ≠ 0x0D

instance (ch : Nat) : Decidable (isGlyph ch) := by
  unfold isGlyph
  infer_instance

/-- The call sequence `setCursor(5, 1); write('A');` on a device fresh from
`begin(16, 2)`. -/
def cursorThenGlyph : Except Fault (State × Nat) :=
  (setCursor sampleState 5 1).bind fun s => write 0 s 0x41

/-! ## Auxiliary facts -/

theorem andNot_testBit (x m i : Nat) :
    (andNot x m).testBit i = (x.testBit i && !m.testBit i) := by
  unfold andNot
  rw [Nat.testBit_xor, Nat.testBit_and]
  cases x.testBit i <;> cases m.testBit i <;> rfl

theorem i2cData_eq_frame (bl : Int) (n : Nat) (d : Bool) (hn : n < 16) :
    i2cData bl n d = frame bl n d := by
  unfold i2cData frame PCF_BACKLIGHT PCF_RS
  by_cases hb : 0 < bl <;> cases d <;> interval_cases n <;> simp [hb]

theorem frame_bits (bl : Int) (n : Nat) (d : Bool) (hn : n < 16) :
    frame bl n d < 256 ∧ frame bl n d >>> 4 = n ∧ (frame bl n d ||| 0x04) >>> 4 = n
    ∧ frame bl n d &&& 0x04 = 0 ∧ (frame bl n d ||| 0x04) &&& 0x04 = 0x04
    ∧ frame bl n d &&& 0x02 = 0 ∧ (frame bl n d ||| 0x04) &&& 0x02 = 0
    ∧ frame bl n d &&& 0x01 = (if d then 1 else 0)
    ∧ (frame bl n d ||| 0x04) &&& 0x01 = (if d then 1 else 0)
    ∧ frame bl n d &&& 0x08 = (if 0 < bl then 8 else 0)
    ∧ (frame bl n d ||| 0x04) &&& 0x08 = (if 0 < bl then 8 else 0) := by
  unfold frame
  by_cases hb : 0 < bl <;> cases d <;> interval_cases n <;> simp [hb] <;> decide

theorem writePCF_eq (s : State) (n : Nat) (d : Bool) :
    _writePCF s n d =
      { s with
        i2cDataState := d
        bus := s.bus ++ (preWrite s.i2cDataState d (i2cData s._backlight n d)
          ++ [i2cData s._backlight n d ||| PCF_EN, i2cData s._backlight n d]).map
            BusEvent.write } := by
  unfold _writePCF preWrite Wire_write
  cases hs : s.i2cDataState <;> cases d <;> simp [hs]

theorem nibbles (b : Nat) (hb : b < 256) :
    b >>> 4 < 16 ∧ b &&& 0x0F < 16 ∧ ((b >>> 4) <<< 4) ||| (b &&& 0x0F) = b := by
  have h1 : b >>> 4 = b / 16 := Nat.shiftRight_eq_div_pow b 4
  have h2 : b &&& 0x0F = b % 16 := Nat.and_pow_two_sub_one_eq_mod b 4
  have h3 : 2 ^ 4 * (b / 16) + b % 16 = 2 ^ 4 * (b / 16) ||| b % 16 :=
    Nat.mul_add_lt_is_or (Nat.mod_lt b (by decide)) (b / 16)
  rw [h1, h2, Nat.shiftLeft_eq]
  refine ⟨by omega, by omega, ?_⟩
  rw [Nat.mul_comm, ← h3]
  omega

theorem send_eq (s : State) (v : Nat) (d : Bool) :
    _send s v d =
      { s with
        i2cDataState := d
        bus := s.bus ++ [BusEvent.beginTransmission s._i2cAddr]
          ++ (preWrite s.i2cDataState d (i2cData s._backlight ((v % 256) >>> 4) d)
            ++ [i2cData s._backlight ((v % 256) >>> 4) d ||| PCF_EN,
                i2cData s._backlight ((v % 256) >>> 4) d,
                i2cData s._backlight ((v % 256) &&& 0x0F) d ||| PCF_EN,
                i2cData s._backlight ((v % 256) &&& 0x0F) d]).map BusEvent.write
          ++ [BusEvent.endTransmission] } := by
  unfold _send
  simp only [writePCF_eq, Wire_beginTransmission, Wire_endTransmission]
  simp [preWrite]

theorem emitted_append (s s' : State) (l : List BusEvent) (h : s'.bus = s.bus ++ l) :
    emitted s s' = l := by
  unfold emitted
  rw [h]
  exact List.drop_left _ _

theorem emitted_send (s : State) (v : Nat) (d : Bool) :
    emitted s (_send s v d) =
      [BusEvent.beginTransmission s._i2cAddr]
        ++ (preWrite s.i2cDataState d (i2cData s._backlight ((v % 256) >>> 4) d)
          ++ [i2cData s._backlight ((v % 256) >>> 4) d ||| PCF_EN,
              i2cData s._backlight ((v % 256) >>> 4) d,
              i2cData s._backlight ((v % 256) &&& 0x0F) d ||| PCF_EN,
              i2cData s._backlight ((v % 256) &&& 0x0F) d]).map BusEvent.write
        ++ [BusEvent.endTransmission] := by
  apply emitted_append
  rw [send_eq]
  simp

theorem row_offsets_lookup (r : Nat) (hr : r < 4) :
    ∃ offset, row_offsets[r]? = some offset := by
  interval_cases r <;> simp [row_offsets]

theorem setCursorLCD_eq (s : State) (columns lines col row offset : Nat)
    (hc : 1 ≤ columns) (hl : 1 ≤ lines)
    (hcols : s._cols = (columns : Int)) (hlines : s._lines = (lines : Int))
    (hcol : col < 256) (hrow : row < 256)
    (hoff : row_offsets[row % lines]? = some offset) :
    setCursorLCD s col row =
      Except.ok { _send s (0x80 ||| (offset + col % columns)) false with
        _col := col % columns, _row := row % lines } := by
  have hc0 : ¬ ((columns : Int) = 0) := by omega
  have hl0 : ¬ ((lines : Int) = 0) := by omega
  have h1 : col % 256 = col := Nat.mod_eq_of_lt hcol
  have h2 : row % 256 = row := Nat.mod_eq_of_lt hrow
  have h3 : (Int.tmod (col : Int) (columns : Int)).toNat = col % columns := by
    rw [← Int.ofNat_tmod]; exact Int.toNat_ofNat _
  have h4 : (Int.tmod (row : Int) (lines : Int)).toNat = row % lines := by
    rw [← Int.ofNat_tmod]; exact Int.toNat_ofNat _
  have h5 : col % columns % 256 = col % columns :=
    Nat.mod_eq_of_lt (lt_of_le_of_lt (Nat.mod_le _ _) hcol)
  have h6 : row % lines % 256 = row % lines :=
    Nat.mod_eq_of_lt (lt_of_le_of_lt (Nat.mod_le _ _) hrow)
  unfold setCursorLCD
  simp only [hcols, hlines, hc0, hl0, h1, h2, h3, h4, h5, h6, hoff, if_false, isDataDefault]

theorem transactions_send (s : State) (v : Nat) (d : Bool) :
    transactions (emitted s (_send s v d)) = 1 := by
  rw [emitted_send]
  unfold preWrite transactions
  split <;> simp [List.countP_cons]

theorem send_fields (s : State) (v : Nat) (d : Bool) :
    (_send s v d)._i2cAddr = s._i2cAddr ∧ (_send s v d)._backlight = s._backlight
      ∧ (_send s v d)._cols = s._cols ∧ (_send s v d)._lines = s._lines
      ∧ (_send s v d)._entrymode = s._entrymode
      ∧ (_send s v d)._displaycontrol = s._displaycontrol
      ∧ (_send s v d)._row = s._row ∧ (_send s v d)._col = s._col
      ∧ (_send s v d).i2cDataState = d := by
  rw [send_eq]
  simp

theorem setCursorLCD_trunc (s : State) (col row : Nat) :
    setCursorLCD s col row = setCursorLCD s (col % 256) (row % 256) := by
  unfold setCursorLCD
  simp only [Nat.mod_mod]

theorem setCursorLCD_any (s : State) (columns lines col row : Nat)
    (hc : 1 ≤ columns) (hl : 1 ≤ lines) (hl4 : lines ≤ 4)
    (hcols : s._cols = (columns : Int)) (hlines : s._lines = (lines : Int)) :
    ∃ offset, row_offsets[row % 256 % lines]? = some offset
      ∧ setCursorLCD s col row =
        Except.ok { _send s (0x80 ||| (offset + col % 256 % columns)) false with
          _col := col % 256 % columns, _row := row % 256 % lines } := by
  have hr : row % 256 % lines < 4 := lt_of_lt_of_le (Nat.mod_lt _ (by omega)) hl4
  obtain ⟨offset, hoff⟩ := row_offsets_lookup _ hr
  refine ⟨offset, hoff, ?_⟩
  rw [setCursorLCD_trunc]
  exact setCursorLCD_eq s columns lines _ _ offset hc hl hcols hlines
    (Nat.mod_lt _ (by decide)) (Nat.mod_lt _ (by decide)) hoff

theorem setCursorLCD_inv (s : State) (columns lines col row : Nat)
    (hc : 1 ≤ columns) (hl : 1 ≤ lines) (hl4 : lines ≤ 4)
    (hcols : s._cols = (columns : Int)) (hlines : s._lines = (lines : Int)) :
    ∃ s', setCursorLCD s col row = Except.ok s'
      ∧ s'._cols = (columns : Int) ∧ s'._lines = (lines : Int) ∧ cursorInRange s' := by
  obtain ⟨offset, -, hres⟩ := setCursorLCD_any s columns lines col row hc hl hl4 hcols hlines
  refine ⟨_, hres, ?_, ?_, ?_⟩
  · simpa [send_fields] using hcols
  · simpa [send_fields] using hlines
  · have h1 : row % 256 % lines < lines := Nat.mod_lt _ (by omega)
    have h2 : col % 256 % columns < columns := Nat.mod_lt _ (by omega)
    simp only [cursorInRange, send_fields, hcols, hlines]
    omega

theorem setCursor_inv (s : State) (columns lines col row : Nat)
    (hc : 1 ≤ columns) (hl : 1 ≤ lines) (hl4 : lines ≤ 4)
    (hcols : s._cols = (columns : Int)) (hlines : s._lines = (lines : Int))
    (hin : cursorInRange s) :
    ∃ s', setCursor s col row = Except.ok s'
      ∧ s'._cols = (columns : Int) ∧ s'._lines = (lines : Int) ∧ cursorInRange s' := by
  unfold setCursor
  by_cases hcond : s._col ≠ col % 256 ∨ s._row ≠ row % 256
  · simp only [hcond, if_true]
    exact setCursorLCD_inv s columns lines _ _ hc hl hl4 hcols hlines
  · simp only [hcond, if_false]
    exact ⟨s, rfl, hcols, hlines, hin⟩

theorem clear_fields (s : State) :
    (clear s)._cols = s._cols ∧ (clear s)._lines = s._lines
      ∧ (clear s)._row = 0 ∧ (clear s)._col = 0
      ∧ (clear s)._entrymode = s._entrymode
      ∧ (clear s)._displaycontrol = s._displaycontrol
      ∧ (clear s)._backlight = s._backlight ∧ (clear s)._i2cAddr = s._i2cAddr := by
  simp [clear, _sendNibble, delayMicroseconds, writePCF_eq, send_eq, Wire_beginTransmission,
    Wire_endTransmission]

theorem fillLoop_fields (fuel : Nat) :
    ∀ (s s' : State) (N : Nat), fillLoop fuel s N = Except.ok s' →
      s'._cols = s._cols ∧ s'._lines = s._lines ∧ s'._row = s._row ∧ s'._col = s._col := by
  induction fuel with
  | zero =>
    intro s s' N h
    simp [fillLoop] at h
  | succ fuel ih =>
    intro s s' N h
    unfold fillLoop at h
    split at h
    · have := ih _ _ _ h
      simpa [writeLCD, send_fields] using this
    · cases h
      exact ⟨rfl, rfl, rfl, rfl⟩

theorem fillLoop_returns (columns : Nat) (hc : columns ≤ 255) (fuel : Nat) :
    ∀ (s : State) (N : Nat), s._cols = (columns : Int) → N ≤ 255 → columns - N < fuel →
      ∃ s', fillLoop fuel s N = Except.ok s' := by
  induction fuel with
  | zero =>
    intro s N _ _ h
    omega
  | succ fuel ih =>
    intro s N hcols hN hfuel
    unfold fillLoop
    split
    · rename_i hlt
      rw [hcols] at hlt
      have hN1 : (N + 1) % 256 = N + 1 := Nat.mod_eq_of_lt (by omega)
      rw [hN1]
      exact ih _ _ (by simpa [writeLCD, send_fields] using hcols) (by omega) (by omega)
    · exact ⟨s, rfl⟩

theorem createChar_fold_fields (charmap : List Int) (l : List Nat) :
    ∀ (s s' : State), l.foldlM (createCharStep charmap) s = Except.ok s' →
      s'._cols = s._cols ∧ s'._lines = s._lines ∧ s'._row = s._row ∧ s'._col = s._col := by
  induction l with
  | nil =>
    intro s s' h
    cases h
    exact ⟨rfl, rfl, rfl, rfl⟩
  | cons i l ih =>
    intro s s' h
    rw [List.foldlM_cons] at h
    unfold createCharStep at h
    cases hv : charmap[i]? with
    | none => simp [hv, bind, Except.bind] at h
    | some v =>
      simp only [hv, bind, Except.bind] at h
      have := ih _ _ h
      simpa [writeLCD, send_fields] using this

theorem createChar_fold_returns (charmap : List Int) (l : List Nat)
    (hl : ∀ i ∈ l, i < charmap.length) :
    ∀ (s : State), ∃ s', l.foldlM (createCharStep charmap) s = Except.ok s' := by
  induction l with
  | nil =>
    intro s
    exact ⟨s, rfl⟩
  | cons i l ih =>
    intro s
    rw [List.foldlM_cons]
    unfold createCharStep
    have hi : i < charmap.length := hl i (List.mem_cons_self _ _)
    have hv : charmap[i]? = some charmap[i] := List.getElem?_eq_getElem hi
    simp only [hv, bind, Except.bind]
    exact ih (fun j hj => hl j (List.mem_cons_of_mem _ hj)) _

theorem inv_of_fields (s s' : State) (columns lines : Nat)
    (hcols : s._cols = (columns : Int)) (hlines : s._lines = (lines : Int))
    (hin : cursorInRange s)
    (h : s'._cols = s._cols ∧ s'._lines = s._lines ∧ s'._row = s._row ∧ s'._col = s._col) :
    s'._cols = (columns : Int) ∧ s'._lines = (lines : Int) ∧ cursorInRange s' := by
  obtain ⟨h1, h2, h3, h4⟩ := h
  unfold cursorInRange at *
  rw [h1, h2, h3, h4]
  exact ⟨hcols, hlines, hin⟩

theorem write_glyph_eq (fuel : Nat) (s : State) (ch : Nat) (hch : ch < 256)
    (hne : ch ≠ 0x01 ∧ ch ≠ 0x02 ∧ ch ≠ 0x03 ∧ ch ≠ 0x0A ∧ ch ≠ 0x0D) :
    write fuel s ch =
      if s._cols ≤ ((s._col + 1 : Nat) : Int) then
        (setCursorLCD { writeLCD s ch with _col := s._col + 1 } 0 (s._row + 1)).map
          fun s => (s, 1)
      else Except.ok ({ writeLCD s ch with _col := s._col + 1 }, 1) := by
  have hmod : ch % 256 = ch := Nat.mod_eq_of_lt hch
  obtain ⟨n1, n2, n3, n4, n5⟩ := hne
  unfold write
  rw [hmod]
  split
  · exact absurd rfl n1
  · exact absurd rfl n2
  · exact absurd rfl n3
  · exact absurd rfl n5
  · exact absurd rfl n4
  · simp [writeLCD, (send_fields s _ true).2.2.1, (send_fields s _ true).2.2.2.2.2.2.1,
      (send_fields s _ true).2.2.2.2.2.2.2.1]

theorem write_inv (fuel : Nat) (s : State) (columns lines ch : Nat)
    (hc : 1 ≤ columns) (hl : 1 ≤ lines) (hl4 : lines ≤ 4)
    (hcols : s._cols = (columns : Int)) (hlines : s._lines = (lines : Int))
    (hin : cursorInRange s) (r : State × Nat) (h : write fuel s ch = Except.ok r) :
    r.1._cols = (columns : Int) ∧ r.1._lines = (lines : Int) ∧ cursorInRange r.1 := by
  have hLCD : ∀ (t : State) (col row : Nat) (r : State × Nat),
      t._cols = (columns : Int) → t._lines = (lines : Int) →
      (setCursorLCD t col row).map (fun s => (s, 1)) = Except.ok r →
      r.1._cols = (columns : Int) ∧ r.1._lines = (lines : Int) ∧ cursorInRange r.1 := by
    intro t col row r ht1 ht2 hr
    obtain ⟨t', e, g1, g2, g3⟩ := setCursorLCD_inv t columns lines col row hc hl hl4 ht1 ht2
    rw [e] at hr
    cases hr
    exact ⟨g1, g2, g3⟩
  unfold write at h
  split at h
  · cases h
    have hf := clear_fields s
    refine ⟨hf.1.trans hcols, hf.2.1.trans hlines, ?_⟩
    simp only [cursorInRange, hf.1, hf.2.1, hf.2.2.1, hf.2.2.2.1, hcols, hlines]
    omega
  · obtain ⟨t', e, g1, g2, g3⟩ := setCursor_inv s columns lines 0 0 hc hl hl4 hcols hlines hin
    unfold home at h
    rw [e] at h
    cases h
    exact ⟨g1, g2, g3⟩
  · cases hfill : fillLoop fuel s (s._col % 256) with
    | error f => rw [hfill] at h; cases h
    | ok t =>
      rw [hfill] at h
      obtain ⟨f1, f2, -, -⟩ := fillLoop_fields fuel s t _ hfill
      exact hLCD t _ _ r (f1.trans hcols) (f2.trans hlines) h
  · exact hLCD s _ _ r hcols hlines h
  · exact hLCD s _ _ r hcols hlines h
  · have e1 : (writeLCD s (ch % 256))._cols = s._cols := by simp [writeLCD, send_fields]
    have e2 : (writeLCD s (ch % 256))._lines = s._lines := by simp [writeLCD, send_fields]
    have e3 : (writeLCD s (ch % 256))._row = s._row := by simp [writeLCD, send_fields]
    have e4 : (writeLCD s (ch % 256))._col = s._col := by simp [writeLCD, send_fields]
    simp only [] at h
    split at h
    · exact hLCD _ _ _ r (by exact e1.trans hcols) (by exact e2.trans hlines) h
    · rename_i hlt
      cases h
      refine ⟨e1.trans hcols, e2.trans hlines, ?_⟩
      have hin1 := hin.1
      simp only [cursorInRange, e1, e2, e3, e4] at hlt ⊢
      exact ⟨hin1, by omega⟩

theorem begin_fields (raw : State) (cols lines : Int) :
    (begin raw cols lines)._cols = cols ∧ (begin raw cols lines)._lines = lines
      ∧ (begin raw cols lines)._row = 0 ∧ (begin raw cols lines)._col = 0
      ∧ (begin raw cols lines)._backlight = raw._backlight
      ∧ (begin raw cols lines)._i2cAddr = raw._i2cAddr := by
  simp [begin, leftToRight, display, Wire_begin, send_fields, clear_fields]

theorem perform_inv (fuel : Nat) (s s' : State) (columns lines : Nat) (op : Op)
    (hc : 1 ≤ columns) (hl : 1 ≤ lines) (hl4 : lines ≤ 4)
    (hcols : s._cols = (columns : Int)) (hlines : s._lines = (lines : Int))
    (hin : cursorInRange s) (h : perform fuel s op = Except.ok s') :
    s'._cols = (columns : Int) ∧ s'._lines = (lines : Int) ∧ cursorInRange s' := by
  have hclear : (clear s)._cols = (columns : Int) ∧ (clear s)._lines = (lines : Int)
      ∧ cursorInRange (clear s) := by
    have hf := clear_fields s
    refine ⟨hf.1.trans hcols, hf.2.1.trans hlines, ?_⟩
    simp only [cursorInRange, hf.1, hf.2.1, hf.2.2.1, hf.2.2.2.1, hcols, hlines]
    omega
  cases op with
  | clear => cases h; exact hclear
  | init => cases h; exact hclear
  | home =>
    obtain ⟨t, e, g⟩ := setCursor_inv s columns lines 0 0 hc hl hl4 hcols hlines hin
    simp only [perform, home, e] at h
    cases h
    exact g
  | setCursor col row =>
    obtain ⟨t, e, g⟩ := setCursor_inv s columns lines col row hc hl hl4 hcols hlines hin
    simp only [perform, e] at h
    cases h
    exact g
  | noDisplay =>
    cases h
    exact inv_of_fields s _ columns lines hcols hlines hin (by simp [noDisplay, send_fields])
  | display =>
    cases h
    exact inv_of_fields s _ columns lines hcols hlines hin (by simp [display, send_fields])
  | cursor =>
    cases h
    exact inv_of_fields s _ columns lines hcols hlines hin (by simp [cursor, send_fields])
  | noCursor =>
    cases h
    exact inv_of_fields s _ columns lines hcols hlines hin (by simp [noCursor, send_fields])
  | blink =>
    cases h
    exact inv_of_fields s _ columns lines hcols hlines hin (by simp [blink, send_fields])
  | noBlink =>
    cases h
    exact inv_of_fields s _ columns lines hcols hlines hin (by simp [noBlink, send_fields])
  | scrollDisplayLeft =>
    cases h
    exact inv_of_fields s _ columns lines hcols hlines hin
      (by simp [scrollDisplayLeft, send_fields])
  | scrollDisplayRight =>
    cases h
    exact inv_of_fields s _ columns lines hcols hlines hin
      (by simp [scrollDisplayRight, send_fields])
  | leftToRight =>
    cases h
    exact inv_of_fields s _ columns lines hcols hlines hin (by simp [leftToRight, send_fields])
  | rightToLeft =>
    cases h
    exact inv_of_fields s _ columns lines hcols hlines hin (by simp [rightToLeft, send_fields])
  | autoscroll =>
    cases h
    exact inv_of_fields s _ columns lines hcols hlines hin (by simp [autoscroll, send_fields])
  | noAutoscroll =>
    cases h
    exact inv_of_fields s _ columns lines hcols hlines hin
      (by simp [noAutoscroll, send_fields])
  | setBacklight brightness =>
    cases h
    exact inv_of_fields s _ columns lines hcols hlines hin (by simp [setBacklight, send_fields])
  | createChar location charmap =>
    simp only [perform, createChar] at h
    have hf := createChar_fold_fields charmap _ _ _ h
    exact inv_of_fields s _ columns lines hcols hlines hin (by simpa [send_fields] using hf)
  | write ch =>
    simp only [perform] at h
    cases hw : write fuel s ch with
    | error f => rw [hw] at h; cases h
    | ok r =>
      rw [hw] at h
      cases h
      exact write_inv fuel s columns lines ch hc hl hl4 hcols hlines hin r hw

theorem write_returns (s : State) (columns lines ch : Nat)
    (hc : 1 ≤ columns) (hl : 1 ≤ lines) (hl4 : lines ≤ 4)
    (hcols : s._cols = (columns : Int)) (hlines : s._lines = (lines : Int))
    (hin : cursorInRange s) (hfill : ch % 256 = 0x03 → columns ≤ 255) :
    ∃ r, write 256 s ch = Except.ok r ∧ r.2 = 1 := by
  have hLCD : ∀ (t : State) (col row : Nat),
      t._cols = (columns : Int) → t._lines = (lines : Int) →
      ∃ r, (setCursorLCD t col row).map (fun s => (s, 1)) = Except.ok r ∧ r.2 = 1 := by
    intro t col row ht1 ht2
    obtain ⟨t', e, -⟩ := setCursorLCD_inv t columns lines col row hc hl hl4 ht1 ht2
    exact ⟨(t', 1), by rw [e]; rfl, rfl⟩
  unfold write
  split
  · exact ⟨_, rfl, rfl⟩
  · obtain ⟨t, e, -⟩ := setCursor_inv s columns lines 0 0 hc hl hl4 hcols hlines hin
    exact ⟨(t, 1), by unfold home; rw [e]; rfl, rfl⟩
  · rename_i h3
    have hN : s._col % 256 ≤ 255 := Nat.le_of_lt_succ (Nat.mod_lt _ (by decide))
    obtain ⟨t, ht⟩ := fillLoop_returns columns (hfill h3) 256 s (s._col % 256) hcols hN
      (by omega)
    obtain ⟨f1, f2, -, -⟩ := fillLoop_fields 256 s t _ ht
    rw [ht]
    exact hLCD t _ _ (f1.trans hcols) (f2.trans hlines)
  · exact hLCD s _ _ hcols hlines
  · exact hLCD s _ _ hcols hlines
  · have e1 : (writeLCD s (ch % 256))._cols = s._cols := by simp [writeLCD, send_fields]
    have e2 : (writeLCD s (ch % 256))._lines = s._lines := by simp [writeLCD, send_fields]
    simp only []
    split
    · exact hLCD _ _ _ (by exact e1.trans hcols) (by exact e2.trans hlines)
    · exact ⟨_, rfl, rfl⟩

theorem perform_returns (s : State) (columns lines : Nat) (op : Op)
    (hc : 1 ≤ columns) (hl : 1 ≤ lines) (hl4 : lines ≤ 4)
    (hcols : s._cols = (columns : Int)) (hlines : s._lines = (lines : Int))
    (hin : cursorInRange s) (hop : hasResult columns op) :
    ∃ s', perform 256 s op = Except.ok s' := by
  cases op with
  | home =>
    obtain ⟨t, e, -⟩ := setCursor_inv s columns lines 0 0 hc hl hl4 hcols hlines hin
    exact ⟨t, e⟩
  | setCursor col row =>
    obtain ⟨t, e, -⟩ := setCursor_inv s columns lines col row hc hl hl4 hcols hlines hin
    exact ⟨t, e⟩
  | createChar location charmap =>
    have h8 : 8 ≤ charmap.length := hop
    exact createChar_fold_returns charmap (List.range 8)
      (fun i hi => lt_of_lt_of_le (List.mem_range.mp hi) h8) _
  | write ch =>
    obtain ⟨r, e, -⟩ := write_returns s columns lines ch hc hl hl4 hcols hlines hin hop
    exact ⟨r.1, by simp only [perform, e]; rfl⟩
  | _ => exact ⟨_, rfl⟩

theorem send_with_cursor (s : State) (c r v : Nat) (d : Bool) :
    _send { s with _col := c, _row := r } v d = { _send s v d with _col := c, _row := r } := by
  simp [send_eq]

theorem glyph_at (fuel : Nat) (t : State) (columns c c' r ch : Nat)
    (hcols : t._cols = (columns : Int)) (hc : c + 1 < columns) (hc' : c' = c + 1)
    (hch : ch < 256)
    (hne : ch ≠ 0x01 ∧ ch ≠ 0x02 ∧ ch ≠ 0x03 ∧ ch ≠ 0x0A ∧ ch ≠ 0x0D) :
    write fuel { t with _col := c, _row := r } ch =
      Except.ok ({ _send t ch true with _col := c', _row := r }, 1) := by
  have hnot : ¬ (t._cols ≤ ((c + 1 : Nat) : Int)) := by rw [hcols]; omega
  subst hc'
  rw [write_glyph_eq fuel _ ch hch hne]
  simp only [hnot, if_false, writeLCD, Nat.mod_eq_of_lt hch, send_with_cursor]

theorem newline_at (fuel : Nat) (t : State) (columns lines c r r' offset : Nat)
    (hcols : t._cols = (columns : Int)) (hlines : t._lines = (lines : Int))
    (hc : c < columns) (hr : r + 1 < 256) (hl : 1 ≤ lines) (hcb : c < 256)
    (hr' : (r + 1) % lines = r')
    (hoff : row_offsets[(r + 1) % lines]? = some offset) :
    write fuel { t with _col := c, _row := r } 0x0A =
      Except.ok ({ _send t (0x80 ||| (offset + c)) false with _col := c, _row := r' }, 1) := by
  have hw : write fuel { t with _col := c, _row := r } 0x0A
      = (setCursorLCD { t with _col := c, _row := r } c (r + 1)).map fun s => (s, 1) := rfl
  have he := setCursorLCD_eq { t with _col := c, _row := r } columns lines c (r + 1) offset
    (by omega) hl hcols hlines hcb hr hoff
  subst hr'
  rw [hw, he, Nat.mod_eq_of_lt hc, send_with_cursor]
  rfl

theorem hi_there_aux (fuel : Nat) (s : State) (hcols : s._cols = 16) (hlines : s._lines = 2)
    (hrow : s._row = 0) (hcol : s._col = 0) :
    writeAll fuel s [0x48, 0x69, 0x0A, 0x74, 0x68, 0x65, 0x72, 0x65] =
      Except.ok { _send (_send (_send (_send (_send (_send (_send (_send s
          0x48 true) 0x69 true) (0x80 ||| (0x40 + 2)) false)
          0x74 true) 0x68 true) 0x65 true) 0x72 true) 0x65 true with _col := 7, _row := 1 } := by
  have hs : s = { s with _col := 0, _row := 0 } := by
    cases s
    simp only at hrow hcol
    subst hrow hcol
    rfl
  have g : ∀ (t : State) (c c' r ch : Nat), t._cols = 16 → c + 1 < 16 → c' = c + 1 → ch < 256 →
      (ch ≠ 0x01 ∧ ch ≠ 0x02 ∧ ch ≠ 0x03 ∧ ch ≠ 0x0A ∧ ch ≠ 0x0D) →
      write fuel { t with _col := c, _row := r } ch =
        Except.ok ({ _send t ch true with _col := c', _row := r }, 1) :=
    fun t c c' r ch h1 h2 h3 h4 h5 => glyph_at fuel t 16 c c' r ch h1 h2 h3 h4 h5
  have f16 : ∀ (t : State) (v : Nat) (d : Bool), t._cols = 16 → (_send t v d)._cols = 16 :=
    fun t v d h => (send_fields t v d).2.2.1.trans h
  have f2 : ∀ (t : State) (v : Nat) (d : Bool), t._lines = 2 → (_send t v d)._lines = 2 :=
    fun t v d h => (send_fields t v d).2.2.2.1.trans h
  have h1 := f16 s 0x48 true hcols
  have h2 := f16 _ 0x69 true h1
  have h3 := f16 _ (0x80 ||| (0x40 + 2)) false h2
  have h4 := f16 _ 0x74 true h3
  have h5 := f16 _ 0x68 true h4
  have h6 := f16 _ 0x65 true h5
  have h7 := f16 _ 0x72 true h6
  have key : writeAll fuel { s with _col := 0, _row := 0 }
      [0x48, 0x69, 0x0A, 0x74, 0x68, 0x65, 0x72, 0x65] =
      Except.ok { _send (_send (_send (_send (_send (_send (_send (_send s
          0x48 true) 0x69 true) (0x80 ||| (0x40 + 2)) false)
          0x74 true) 0x68 true) 0x65 true) 0x72 true) 0x65 true with _col := 7, _row := 1 } := by
    simp only [writeAll]
    rw [g s 0 1 0 0x48 hcols (by decide) rfl (by decide) (by decide)]
    simp only [Except.bind]
    rw [g _ 1 2 0 0x69 h1 (by decide) rfl (by decide) (by decide)]
    simp only [Except.bind]
    rw [newline_at fuel _ 16 2 2 0 1 0x40 h2 (f2 _ _ _ (f2 _ _ _ hlines))
      (by decide) (by decide) (by decide) (by decide) rfl rfl]
    simp only [Except.bind]
    rw [g _ 2 3 1 0x74 h3 (by decide) rfl (by decide) (by decide)]
    simp only [Except.bind]
    rw [g _ 3 4 1 0x68 h4 (by decide) rfl (by decide) (by decide)]
    simp only [Except.bind]
    rw [g _ 4 5 1 0x65 h5 (by decide) rfl (by decide) (by decide)]
    simp only [Except.bind]
    rw [g _ 5 6 1 0x72 h6 (by decide) rfl (by decide) (by decide)]
    simp only [Except.bind]
    rw [g _ 6 7 1 0x65 h7 (by decide) rfl (by decide) (by decide)]
  rw [← hs] at key
  exact key

theorem midState_reached : setCursor sampleState 5 1 = Except.ok midState :=
  rfl

theorem send_bus (s : State) (v : Nat) (d : Bool) :
    (_send s v d).bus =
      s.bus ++ sendEvents s.i2cDataState s._i2cAddr s._backlight (v % 256) d := by
  obtain ⟨hhi, hlo, -⟩ := nibbles (v % 256) (Nat.mod_lt v (by decide))
  rw [send_eq]
  simp only [sendEvents, strobes, i2cData_eq_frame _ _ _ hhi, i2cData_eq_frame _ _ _ hlo, PCF_EN]
  simp

theorem sendNibble_eq (s : State) (n : Nat) (d : Bool) :
    _sendNibble s n d =
      { s with
        i2cDataState := d
        bus := s.bus ++ [BusEvent.beginTransmission s._i2cAddr]
          ++ (preWrite s.i2cDataState d (i2cData s._backlight n d)
            ++ [i2cData s._backlight n d ||| PCF_EN, i2cData s._backlight n d]).map
              BusEvent.write
          ++ [BusEvent.endTransmission] } := by
  unfold _sendNibble
  simp only [writePCF_eq, Wire_beginTransmission, Wire_endTransmission]

theorem sendNibble_bus (s : State) (n : Nat) (d : Bool) (hn : n < 16) :
    (_sendNibble s n d).bus =
      s.bus ++ nibbleEvents s.i2cDataState s._i2cAddr s._backlight n d := by
  rw [sendNibble_eq]
  simp only [nibbleEvents, i2cData_eq_frame _ _ _ hn, PCF_EN]
  simp

theorem sendNibble_fields (s : State) (n : Nat) (d : Bool) :
    (_sendNibble s n d)._i2cAddr = s._i2cAddr ∧ (_sendNibble s n d)._backlight = s._backlight
      ∧ (_sendNibble s n d)._cols = s._cols ∧ (_sendNibble s n d)._lines = s._lines
      ∧ (_sendNibble s n d)._entrymode = s._entrymode
      ∧ (_sendNibble s n d)._displaycontrol = s._displaycontrol
      ∧ (_sendNibble s n d)._row = s._row ∧ (_sendNibble s n d)._col = s._col
      ∧ (_sendNibble s n d).i2cDataState = d := by
  rw [sendNibble_eq]
  simp

theorem clear_bus (s : State) :
    (clear s).bus =
      s.bus ++ (sendEvents s.i2cDataState s._i2cAddr s._backlight 0x01 false
        ++ nibbleEvents false s._i2cAddr s._backlight 0x02 false
        ++ [BusEvent.delayMicroseconds 2000]
        ++ sendEvents false s._i2cAddr s._backlight (if 1 < s._lines then 0x2C else 0x24) false
        ++ sendEvents false s._i2cAddr s._backlight ((0x04 ||| s._entrymode) % 256) false
        ++ sendEvents false s._i2cAddr s._backlight ((0x08 ||| s._displaycontrol) % 256) false
        ++ sendEvents false s._i2cAddr s._backlight 0x01 false
        ++ [BusEvent.delayMicroseconds 2000]) := by
  have hflags : ((0x24 ||| (if 1 < s._lines then 0x08 else 0 : Nat)) % 256)
      = (if 1 < s._lines then 0x2C else 0x24) := by
    split <;> rfl
  unfold clear
  simp only [delayMicroseconds, isDataDefault, send_bus, send_fields, sendNibble_fields,
    sendNibble_bus _ 0x02 false (by decide), hflags, List.append_assoc]

theorem testBit_two (i : Nat) : Nat.testBit 2 i = decide (1 = i) :=
  Nat.testBit_two_pow (n := 1) (m := i)

theorem testBit_one (i : Nat) : Nat.testBit 1 i = decide (0 = i) :=
  Nat.testBit_two_pow (n := 0) (m := i)

theorem or_two_bits (x : Nat) :
    (x ||| 0x02).testBit 1 = true ∧ ∀ i, i ≠ 1 → (x ||| 0x02).testBit i = x.testBit i := by
  refine ⟨by rw [Nat.testBit_or, testBit_two]; simp, fun i hi => ?_⟩
  rw [Nat.testBit_or, testBit_two]
  have : ¬ (1 = i) := fun h => hi h.symm
  simp [this]

theorem or_one_bits (x : Nat) :
    (x ||| 0x01).testBit 0 = true ∧ ∀ i, i ≠ 0 → (x ||| 0x01).testBit i = x.testBit i := by
  refine ⟨by rw [Nat.testBit_or, testBit_one]; simp, fun i hi => ?_⟩
  rw [Nat.testBit_or, testBit_one]
  have : ¬ (0 = i) := fun h => hi h.symm
  simp [this]

theorem andNot_two_bits (x : Nat) :
    (andNot x 0x02).testBit 1 = false
      ∧ ∀ i, i ≠ 1 → (andNot x 0x02).testBit i = x.testBit i := by
  refine ⟨by rw [andNot_testBit, testBit_two]; simp, fun i hi => ?_⟩
  rw [andNot_testBit, testBit_two]
  have : ¬ (1 = i) := fun h => hi h.symm
  simp [this]

theorem andNot_one_bits (x : Nat) :
    (andNot x 0x01).testBit 0 = false
      ∧ ∀ i, i ≠ 0 → (andNot x 0x01).testBit i = x.testBit i := by
  refine ⟨by rw [andNot_testBit, testBit_one]; simp, fun i hi => ?_⟩
  rw [andNot_testBit, testBit_one]
  have : ¬ (0 = i) := fun h => hi h.symm
  simp [this]

theorem entry_command (s : State) (em : Nat) :
    (_send { s with _entrymode := em } (0x04 ||| em) false)._entrymode = em
      ∧ emitted s (_send { s with _entrymode := em } (0x04 ||| em) false) =
        sendEvents s.i2cDataState s._i2cAddr s._backlight ((0x04 ||| em) % 256) false
      ∧ transactions (emitted s (_send { s with _entrymode := em } (0x04 ||| em) false)) = 1
      ∧ (_send { s with _entrymode := em } (0x04 ||| em) false)._displaycontrol
          = s._displaycontrol
      ∧ (_send { s with _entrymode := em } (0x04 ||| em) false)._row = s._row
      ∧ (_send { s with _entrymode := em } (0x04 ||| em) false)._col = s._col := by
  refine ⟨by simp [send_fields], ?_, ?_, by simp [send_fields], by simp [send_fields],
    by simp [send_fields]⟩
  · exact emitted_append s _ _ (send_bus { s with _entrymode := em } _ false)
  · exact transactions_send { s with _entrymode := em } _ false

theorem writesOf_map_write (ws : List Nat) : writesOf (ws.map BusEvent.write) = ws := by
  induction ws with
  | nil => rfl
  | cons w ws ih =>
    simp only [writesOf, List.map_cons, List.filterMap_cons] at ih ⊢
    rw [ih]

theorem writesOf_append (l1 l2 : List BusEvent) :
    writesOf (l1 ++ l2) = writesOf l1 ++ writesOf l2 := by
  unfold writesOf
  exact List.filterMap_append _ _ _

theorem writesOf_sendEvents (last : Bool) (addr bl : Int) (v : Nat) (d : Bool) :
    writesOf (sendEvents last addr bl v d) =
      preWrite last d (frame bl (v >>> 4) d) ++ strobes bl v d := by
  unfold sendEvents
  rw [writesOf_append, writesOf_append, writesOf_map_write]
  simp [writesOf]

theorem backlight_writes (s : State) (level : Int) :
    ∀ b ∈ writesOf (emitted s (setBacklight s level)),
      b >>> 4 = 0 ∧ b &&& 0x01 = 0 ∧ (b &&& 0x08 ≠ 0 ↔ 0 < level)
        ∧ (b &&& 0x08 = if 0 < level then 0x08 else 0) := by
  intro b hb
  have he : emitted s (setBacklight s level)
      = sendEvents s.i2cDataState s._i2cAddr level (0x00 % 256) false :=
    emitted_append s _ _ (send_bus { s with _backlight := level } 0x00 false)
  rw [he, writesOf_sendEvents] at hb
  have fb := frame_bits level 0 false (by decide)
  have hb2 : b = frame level 0 false ∨ b = frame level 0 false ||| 0x04 := by
    unfold preWrite strobes at hb
    split at hb <;> simp at hb <;> tauto
  rcases hb2 with h | h <;> subst h
  · refine ⟨fb.2.1, by rw [fb.2.2.2.2.2.2.2.1]; rfl, ?_, fb.2.2.2.2.2.2.2.2.2.1⟩
    rw [fb.2.2.2.2.2.2.2.2.2.1]
    by_cases hl : 0 < level <;> simp [hl]
  · refine ⟨fb.2.2.1, by rw [fb.2.2.2.2.2.2.2.2.1]; rfl, ?_, fb.2.2.2.2.2.2.2.2.2.2⟩
    rw [fb.2.2.2.2.2.2.2.2.2.2]
    by_cases hl : 0 < level <;> simp [hl]

theorem ldiff_seven (n : Nat) : Nat.ldiff 7 n = 7 - n % 8 := by
  apply Nat.eq_of_testBit_eq
  intro k
  rw [Nat.testBit_ldiff]
  have hr : n % 8 < 8 := Nat.mod_lt _ (by decide)
  by_cases hk : k < 3
  · have h1 : (n % 8).testBit k = n.testBit k := by
      have := Nat.testBit_mod_two_pow n 3 k
      simpa [hk] using this
    rw [← h1]
    generalize n % 8 = r at hr
    interval_cases r <;> interval_cases k <;> decide
  · have h7 : Nat.testBit 7 k = false :=
      Nat.testBit_lt_two_pow (lt_of_lt_of_le (by decide : 7 < 2 ^ 3)
        (Nat.pow_le_pow_right (by decide) (by omega)))
    have h8 : (7 - n % 8).testBit k = false :=
      Nat.testBit_lt_two_pow (lt_of_lt_of_le (by omega : 7 - n % 8 < 2 ^ 3)
        (Nat.pow_le_pow_right (by decide) (by omega)))
    rw [h7, h8]
    rfl

theorem land_seven (x : Int) : Int.land x 7 = x % 8 := by
  cases x with
  | ofNat n =>
    show ((n &&& 7 : Nat) : Int) = (n : Int) % 8
    have : n &&& 7 = n % 8 := Nat.and_pow_two_sub_one_eq_mod n 3
    rw [this]
    rfl
  | negSucc n =>
    show ((Nat.ldiff 7 n : Nat) : Int) = Int.negSucc n % 8
    rw [ldiff_seven, Int.negSucc_emod n (by decide)]
    have hr : n % 8 < 8 := Nat.mod_lt _ (by decide)
    omega

theorem byte_of_int (v : Int) : (v % 256).toNat % 256 = (v % 256).toNat := by
  have h1 : 0 ≤ v % 256 := Int.emod_nonneg v (by decide)
  have h2 : v % 256 < 256 := Int.emod_lt_of_pos v (by decide)
  apply Nat.mod_eq_of_lt
  omega

theorem cgram_command (location : Int) :
    ∃ k : Nat, k < 8 ∧ (k : Int) = location % 8 ∧ (location % 8).toNat = k
      ∧ 0x40 ||| (k <<< 3) = 0x40 + 8 * k := by
  have h1 : 0 ≤ location % 8 := Int.emod_nonneg location (by decide)
  have h2 : location % 8 < 8 := Int.emod_lt_of_pos location (by decide)
  refine ⟨(location % 8).toNat, by omega, Int.toNat_of_nonneg h1, rfl, ?_⟩
  have hk : (location % 8).toNat < 8 := by omega
  generalize (location % 8).toNat = k at hk
  interval_cases k <;> decide

theorem fillLoop_exact (columns : Nat) (hc : columns ≤ 255) (fuel : Nat) :
    ∀ (s : State) (N : Nat), s._cols = (columns : Int) → N ≤ 255 → columns - N < fuel →
      fillLoop fuel s N =
        Except.ok (Nat.iterate (fun t => _send t 0x20 true) (columns - N) s) := by
  induction fuel with
  | zero =>
    intro s N _ _ h
    omega
  | succ fuel ih =>
    intro s N hcols hN hfuel
    unfold fillLoop
    split
    · rename_i hlt
      rw [hcols] at hlt
      have hN1 : (N + 1) % 256 = N + 1 := Nat.mod_eq_of_lt (by omega)
      have hsub : columns - N = (columns - (N + 1)) + 1 := by omega
      rw [hN1, ih _ _ (by simpa [writeLCD, send_fields] using hcols) (by omega) (by omega),
        hsub, Function.iterate_succ_apply]
      rfl
    · rename_i hge
      rw [hcols] at hge
      have hz : columns - N = 0 := by omega
      rw [hz]
      rfl

theorem fillLoop_diverges (fuel : Nat) :
    ∀ (s : State) (N : Nat), 256 ≤ s._cols → N < 256 →
      fillLoop fuel s N = Except.error Fault.outOfFuel := by
  induction fuel with
  | zero =>
    intro s N _ _
    rfl
  | succ fuel ih =>
    intro s N hcols hN
    unfold fillLoop
    have hlt : (N : Int) < s._cols := by omega
    rw [if_pos hlt]
    exact ih _ _ (by simpa [writeLCD, send_fields] using hcols) (Nat.mod_lt _ (by decide))

theorem iterate_send_fields (n : Nat) (v : Nat) (d : Bool) :
    ∀ s : State,
      (Nat.iterate (fun t => _send t v d) n s)._cols = s._cols
        ∧ (Nat.iterate (fun t => _send t v d) n s)._lines = s._lines
        ∧ (Nat.iterate (fun t => _send t v d) n s)._row = s._row
        ∧ (Nat.iterate (fun t => _send t v d) n s)._col = s._col := by
  induction n with
  | zero =>
    intro s
    exact ⟨rfl, rfl, rfl, rfl⟩
  | succ n ih =>
    intro s
    rw [Function.iterate_succ_apply]
    have := ih (_send s v d)
    simpa [send_fields] using this

theorem setCursorLCD_origin (s : State) (hc : s._cols ≠ 0) (hl : s._lines ≠ 0) :
    setCursorLCD s 0 0 = Except.ok { _send s 0x80 false with _col := 0, _row := 0 } := by
  unfold setCursorLCD
  simp [hc, hl, row_offsets, isDataDefault]

theorem setCursorLCD_zero_geometry (s : State) (col row : Nat)
    (h : s._cols = 0 ∨ s._lines = 0) :
    setCursorLCD s col row = Except.error Fault.divisionByZero := by
  unfold setCursorLCD
  by_cases hc : s._cols = 0
  · simp [hc]
  · have hl : s._lines = 0 := h.resolve_left hc
    simp [hc, hl]

theorem setCursor_origin_of_ne (s : State) (hne : ¬ (s._col = 0 ∧ s._row = 0)) :
    setCursor s 0 0 = setCursorLCD s 0 0 := by
  have hcond : s._col ≠ 0 % 256 ∨ s._row ≠ 0 % 256 := by
    by_contra hcon
    push_neg at hcon
    exact hne hcon
  unfold setCursor
  simp only [hcond, if_true]

theorem address_byte_ge (x : Nat) : 0x80 ≤ (0x80 ||| x) % 256 := by
  have h : ((0x80 ||| x) % 2 ^ 8).testBit 7 = true := by
    rw [Nat.testBit_mod_two_pow, Nat.testBit_or]
    have : Nat.testBit 0x80 7 = true := by decide
    simp [this]
  exact Nat.testBit_implies_ge h

theorem address_byte_small (x : Nat) (hx : x < 0x80) : (0x80 ||| x) % 256 = 0x80 ||| x := by
  apply Nat.mod_eq_of_lt
  exact Nat.or_lt_two_pow (n := 8) (by decide) (lt_trans hx (by decide))

theorem address_or_eq_add (x : Nat) (hx : x < 0x80) : 0x80 ||| x = 0x80 + x := by
  have h := Nat.mul_add_lt_is_or (i := 7) (b := x) (by simpa using hx) 1
  simpa using h.symm

theorem address_low_bits (x : Nat) (hx : x < 0x80) : (0x80 ||| x) &&& 0x7F = x := by
  rw [address_or_eq_add x hx]
  have h : (0x80 + x) &&& 0x7F = (0x80 + x) % 2 ^ 7 := Nat.and_pow_two_sub_one_eq_mod _ 7
  rw [h]
  omega

theorem decode_writes (ws : List Nat) :
    ∀ (acc : List Nat) (D : Decoder),
      (ws.map BusEvent.write).foldl Decoder.step { D with pending := some acc }
        = { D with pending := some (acc ++ ws) } := by
  induction ws with
  | nil => intro acc D; simp
  | cons w ws ih =>
    intro acc D
    simp only [List.map_cons, List.foldl_cons, Decoder.step, Option.map_some']
    rw [ih]
    simp

theorem decode_send (D : Decoder) (last : Bool) (addr bl : Int) (v : Nat) (d : Bool)
    (hv : v < 256) :
    (sendEvents last addr bl v d).foldl Decoder.step D =
      { pending := none, received := D.received ++ [(d, v)] } := by
  obtain ⟨hhi, hlo, hcat⟩ := nibbles v hv
  have fh := frame_bits bl (v >>> 4) d hhi
  have fl := frame_bits bl (v &&& 0x0F) d hlo
  have hp : ∀ w ∈ preWrite last d (frame bl (v >>> 4) d), w &&& PCF_EN = 0 := by
    intro w hw
    unfold preWrite at hw
    split at hw
    · simp at hw; subst hw; exact fh.2.2.2.1
    · simp at hw
  have hdel : delivered (preWrite last d (frame bl (v >>> 4) d) ++ strobes bl v d)
      = some (d, v) := by
    have hfil : (preWrite last d (frame bl (v >>> 4) d) ++ strobes bl v d).filter
        (fun w => decide (w &&& PCF_EN ≠ 0))
        = [frame bl (v >>> 4) d ||| 0x04, frame bl (v &&& 0x0F) d ||| 0x04] := by
      rw [List.filter_append]
      have h0 : (preWrite last d (frame bl (v >>> 4) d)).filter
          (fun w => decide (w &&& PCF_EN ≠ 0)) = [] := by
        rw [List.filter_eq_nil_iff]
        intro w hw
        simp [hp w hw]
      rw [h0]
      simp [strobes, PCF_EN, List.filter, fh, fl]
    unfold delivered
    rw [hfil]
    simp only [PCF_RS, fh.2.2.1, fl.2.2.1, fh.2.2.2.2.2.2.2.2.1, hcat]
    cases d <;> simp
  unfold sendEvents
  rw [List.foldl_append, List.foldl_append]
  simp only [List.foldl_cons, List.foldl_nil, Decoder.step]
  rw [decode_writes]
  simp only [List.nil_append, Decoder.step, Option.some_bind]
  rw [hdel]

theorem decode_nibble (D : Decoder) (last : Bool) (addr bl : Int) (n : Nat) (d : Bool)
    (hn : n < 16) :
    (nibbleEvents last addr bl n d).foldl Decoder.step D
      = { pending := none, received := D.received } := by
  have fb := frame_bits bl n d hn
  have hdel : delivered (preWrite last d (frame bl n d)
      ++ [frame bl n d ||| 0x04, frame bl n d]) = none := by
    have hfil : (preWrite last d (frame bl n d) ++ [frame bl n d ||| 0x04, frame bl n d]).filter
        (fun w => decide (w &&& PCF_EN ≠ 0)) = [frame bl n d ||| 0x04] := by
      unfold preWrite PCF_EN
      split <;> simp [List.filter, fb]
    unfold delivered
    rw [hfil]
  unfold nibbleEvents
  rw [List.foldl_append, List.foldl_append]
  simp only [List.foldl_cons, List.foldl_nil, Decoder.step]
  rw [decode_writes]
  simp only [List.nil_append, Decoder.step, Option.some_bind]
  rw [hdel]

theorem received_send (s : State) (v : Nat) (d : Bool) :
    received (_send s v d).bus = received s.bus ++ [(d, v % 256)] := by
  unfold received
  rw [send_bus, List.foldl_append, decode_send _ _ _ _ _ _ (Nat.mod_lt v (by decide))]

theorem addressCommands_send (s : State) (v : Nat) (d : Bool) :
    addressCommands (_send s v d).bus =
      addressCommands s.bus ++ (if d = false ∧ 0x80 ≤ v % 256 then [v % 256] else []) := by
  unfold addressCommands
  rw [received_send, List.filter_append, List.map_append]
  cases d <;> by_cases h : 0x80 ≤ v % 256 <;> simp [List.filter, h]

theorem addressCommands_send_data (s : State) (v : Nat) :
    addressCommands (_send s v true).bus = addressCommands s.bus := by
  rw [addressCommands_send]
  simp

theorem addressCommands_send_small (s : State) (v : Nat) (hv : v % 256 < 0x80) :
    addressCommands (_send s v false).bus = addressCommands s.bus := by
  rw [addressCommands_send]
  have h : ¬ (0x80 ≤ v % 256) := by omega
  simp [h]

theorem addressCommands_send_address (s : State) (v : Nat) (hv : 0x80 ≤ v % 256) :
    addressCommands (_send s v false).bus = addressCommands s.bus ++ [v % 256] := by
  rw [addressCommands_send]
  simp [hv]

theorem addressCommands_clear (s : State)
    (hem : s._entrymode < 4) (hdc : s._displaycontrol < 8) :
    addressCommands (clear s).bus = addressCommands s.bus := by
  have hm : ∀ v : Nat, v % 256 < 256 := fun v => Nat.mod_lt v (by decide)
  have hfl' : (if 1 < s._lines then 0x2C else 0x24 : Nat) < 256 := by split <;> decide
  have hfl : ¬ (0x80 ≤ (if 1 < s._lines then 0x2C else 0x24 : Nat)) := by split <;> decide
  have h4 : 0x04 ||| s._entrymode < 2 ^ 3 :=
    Nat.or_lt_two_pow (by decide) (lt_trans hem (by decide))
  have h8 : 0x08 ||| s._displaycontrol < 2 ^ 4 :=
    Nat.or_lt_two_pow (by decide) (lt_trans hdc (by decide))
  have h2 : ¬ (0x80 ≤ (0x04 ||| s._entrymode) % 256) := by
    have := Nat.mod_le (0x04 ||| s._entrymode) 256
    omega
  have h3 : ¬ (0x80 ≤ (0x08 ||| s._displaycontrol) % 256) := by
    have := Nat.mod_le (0x08 ||| s._displaycontrol) 256
    omega
  unfold addressCommands received
  rw [clear_bus]
  simp only [List.foldl_append, decode_send _ _ _ _ 0x01 false (by decide),
    decode_nibble _ _ _ _ 0x02 false (by decide),
    decode_send _ _ _ _ _ false hfl', decode_send _ _ _ _ _ false (hm _),
    List.foldl_cons, List.foldl_nil, Decoder.step]
  simp [List.filter_append, List.filter, hfl, h2, h3]

theorem andNot_lt_two_pow (x m n : Nat) (hx : x < 2 ^ n) : andNot x m < 2 ^ n := by
  unfold andNot
  exact Nat.xor_lt_two_pow hx (lt_of_le_of_lt Nat.and_le_left hx)

theorem display_command_small (x : Nat) (hx : x < 8) : (0x08 ||| x) % 256 < 0x80 := by
  have h : 0x08 ||| x < 2 ^ 4 := Nat.or_lt_two_pow (by decide) (lt_trans hx (by decide))
  have := Nat.mod_le (0x08 ||| x) 256
  omega

theorem entry_command_small (x : Nat) (hx : x < 4) : (0x04 ||| x) % 256 < 0x80 := by
  have h : 0x04 ||| x < 2 ^ 3 := Nat.or_lt_two_pow (by decide) (lt_trans hx (by decide))
  have := Nat.mod_le (0x04 ||| x) 256
  omega

theorem setCursorLCD_track (s : State) (columns lines col row : Nat)
    (hc : 1 ≤ columns) (hl : 1 ≤ lines) (hl4 : lines ≤ 4)
    (hcols : s._cols = (columns : Int)) (hlines : s._lines = (lines : Int)) :
    ∃ (s' : State) (offset : Nat), setCursorLCD s col row = Except.ok s'
      ∧ row_offsets[s'._row]? = some offset
      ∧ addressCommands s'.bus =
          addressCommands s.bus ++ [(0x80 ||| (offset + s'._col)) % 256]
      ∧ s'._entrymode = s._entrymode ∧ s'._displaycontrol = s._displaycontrol := by
  obtain ⟨offset, hoff, hres⟩ := setCursorLCD_any s columns lines col row hc hl hl4 hcols hlines
  refine ⟨_, offset, hres, hoff, ?_, by simp [send_fields], by simp [send_fields]⟩
  exact addressCommands_send_address s _ (address_byte_ge _)

theorem fillLoop_track (fuel : Nat) :
    ∀ (s t : State) (N : Nat), fillLoop fuel s N = Except.ok t →
      addressCommands t.bus = addressCommands s.bus
        ∧ t._entrymode = s._entrymode ∧ t._displaycontrol = s._displaycontrol := by
  induction fuel with
  | zero =>
    intro s t N h
    simp [fillLoop] at h
  | succ fuel ih =>
    intro s t N h
    unfold fillLoop at h
    split at h
    · obtain ⟨g1, g2, g3⟩ := ih _ _ _ h
      refine ⟨g1.trans (addressCommands_send_data s _), ?_, ?_⟩
      · rw [g2]; simp [writeLCD, send_fields]
      · rw [g3]; simp [writeLCD, send_fields]
    · cases h
      exact ⟨rfl, rfl, rfl⟩

theorem createChar_fold_track (charmap : List Int) (l : List Nat) :
    ∀ (s s' : State), l.foldlM (createCharStep charmap) s = Except.ok s' →
      addressCommands s'.bus = addressCommands s.bus
        ∧ s'._entrymode = s._entrymode ∧ s'._displaycontrol = s._displaycontrol := by
  induction l with
  | nil =>
    intro s s' h
    cases h
    exact ⟨rfl, rfl, rfl⟩
  | cons i l ih =>
    intro s s' h
    rw [List.foldlM_cons] at h
    unfold createCharStep at h
    cases hv : charmap[i]? with
    | none => simp [hv, bind, Except.bind] at h
    | some v =>
      simp only [hv, bind, Except.bind] at h
      obtain ⟨g1, g2, g3⟩ := ih _ _ h
      refine ⟨g1.trans (addressCommands_send_data s _), ?_, ?_⟩
      · rw [g2]; simp [writeLCD, send_fields]
      · rw [g3]; simp [writeLCD, send_fields]

theorem begin_modes (raw : State) (cols lines : Int) :
    (begin raw cols lines)._entrymode = 0x02 ∧ (begin raw cols lines)._displaycontrol = 0x04 := by
  simp [begin, leftToRight, display, Wire_begin, send_fields, clear_fields]

theorem begin_track (raw : State) (cols lines : Int) :
    addressCommands (begin raw cols lines).bus = addressCommands raw.bus := by
  have hw : ∀ t : State, addressCommands (Wire_begin t).bus = addressCommands t.bus := by
    intro t
    unfold addressCommands received Wire_begin
    simp [List.foldl_append, Decoder.step]
  have h1 : ∀ t : State, t._entrymode < 4 →
      addressCommands (leftToRight t).bus = addressCommands t.bus := fun t ht =>
    addressCommands_send_small { t with _entrymode := t._entrymode ||| 0x02 } _
      (entry_command_small _ (Nat.or_lt_two_pow (n := 2) ht (by decide)))
  have h2 : ∀ t : State, t._displaycontrol < 8 →
      addressCommands (display t).bus = addressCommands t.bus := fun t ht =>
    addressCommands_send_small { t with _displaycontrol := t._displaycontrol ||| 0x04 } _
      (display_command_small _ (Nat.or_lt_two_pow (n := 3) ht (by decide)))
  have e : begin raw cols lines
      = leftToRight (display (clear { Wire_begin { raw with _cols := cols, _lines := lines } with
          _displaycontrol := 0x04, _entrymode := 0x02 })) := rfl
  have h3 : addressCommands (clear { Wire_begin { raw with _cols := cols, _lines := lines } with
      _displaycontrol := 0x04, _entrymode := 0x02 }).bus
      = addressCommands (Wire_begin { raw with _cols := cols, _lines := lines }).bus :=
    addressCommands_clear { Wire_begin { raw with _cols := cols, _lines := lines } with
      _displaycontrol := 0x04, _entrymode := 0x02 }
      (by show (2 : Nat) < 4; decide) (by show (4 : Nat) < 8; decide)
  rw [e, h1 _ (by simp [display, send_fields, clear_fields]),
    h2 _ (by simp [clear_fields]), h3]
  exact hw _

theorem setCursor_track (s : State) (columns lines col row : Nat)
    (hc : 1 ≤ columns) (hl : 1 ≤ lines) (hl4 : lines ≤ 4)
    (hcols : s._cols = (columns : Int)) (hlines : s._lines = (lines : Int))
    (s' : State) (h : setCursor s col row = Except.ok s') :
    s'._entrymode = s._entrymode ∧ s'._displaycontrol = s._displaycontrol
      ∧ ((∃ offset, row_offsets[s'._row]? = some offset
            ∧ addressCommands s'.bus =
              addressCommands s.bus ++ [(0x80 ||| (offset + s'._col)) % 256])
          ∨ (addressCommands s'.bus = addressCommands s.bus
            ∧ s'._row = s._row ∧ s'._col = s._col)) := by
  unfold setCursor at h
  by_cases hcond : s._col ≠ col % 256 ∨ s._row ≠ row % 256
  · simp only [hcond, if_true] at h
    obtain ⟨t, offset, e, hoff, haddr, hem, hdc⟩ :=
      setCursorLCD_track s columns lines (col % 256) (row % 256) hc hl hl4 hcols hlines
    rw [e] at h
    cases h
    exact ⟨hem, hdc, Or.inl ⟨offset, hoff, haddr⟩⟩
  · simp only [hcond, if_false] at h
    cases h
    exact ⟨rfl, rfl, Or.inr ⟨rfl, rfl, rfl⟩⟩

theorem write_track (fuel : Nat) (s : State) (columns lines ch : Nat)
    (hc : 1 ≤ columns) (hl : 1 ≤ lines) (hl4 : lines ≤ 4)
    (hcols : s._cols = (columns : Int)) (hlines : s._lines = (lines : Int))
    (hem : s._entrymode < 4) (hdc : s._displaycontrol < 8)
    (r : State × Nat) (h : write fuel s ch = Except.ok r) :
    r.1._entrymode = s._entrymode ∧ r.1._displaycontrol = s._displaycontrol
      ∧ ((∃ offset, row_offsets[r.1._row]? = some offset
            ∧ addressCommands r.1.bus =
              addressCommands s.bus ++ [(0x80 ||| (offset + r.1._col)) % 256])
          ∨ (addressCommands r.1.bus = addressCommands s.bus
            ∧ ((r.1._row = s._row ∧ r.1._col = s._col)
              ∨ (isGlyph ch ∧ r.1._row = s._row ∧ r.1._col = s._col + 1)
              ∨ (ch % 256 = 0x01 ∧ r.1._row = 0 ∧ r.1._col = 0)))) := by
  have hLCD : ∀ (t : State) (col row : Nat) (r : State × Nat),
      t._cols = (columns : Int) → t._lines = (lines : Int) →
      (setCursorLCD t col row).map (fun s => (s, 1)) = Except.ok r →
      r.1._entrymode = t._entrymode ∧ r.1._displaycontrol = t._displaycontrol
        ∧ ∃ offset, row_offsets[r.1._row]? = some offset
          ∧ addressCommands r.1.bus =
            addressCommands t.bus ++ [(0x80 ||| (offset + r.1._col)) % 256] := by
    intro t col row r ht1 ht2 hr
    obtain ⟨t', offset, e, hoff, haddr, g1, g2⟩ :=
      setCursorLCD_track t columns lines col row hc hl hl4 ht1 ht2
    rw [e] at hr
    cases hr
    exact ⟨g1, g2, offset, hoff, haddr⟩
  unfold write at h
  split at h
  · rename_i h1
    cases h
    have hf := clear_fields s
    exact ⟨hf.2.2.2.2.1, hf.2.2.2.2.2.1,
      Or.inr ⟨addressCommands_clear s hem hdc, Or.inr (Or.inr ⟨h1, hf.2.2.1, hf.2.2.2.1⟩)⟩⟩
  · cases hh : home s with
    | error f => rw [hh] at h; cases h
    | ok t =>
      rw [hh] at h
      cases h
      obtain ⟨g1, g2, g3⟩ := setCursor_track s columns lines 0 0 hc hl hl4 hcols hlines t hh
      refine ⟨g1, g2, ?_⟩
      rcases g3 with g | g
      · exact Or.inl g
      · exact Or.inr ⟨g.1, Or.inl g.2⟩
  · cases hfill : fillLoop fuel s (s._col % 256) with
    | error f => rw [hfill] at h; cases h
    | ok t =>
      rw [hfill] at h
      obtain ⟨f1, f2, -, -⟩ := fillLoop_fields fuel s t _ hfill
      obtain ⟨a1, a2, a3⟩ := fillLoop_track fuel s t _ hfill
      obtain ⟨g1, g2, offset, hoff, haddr⟩ := hLCD t _ _ r (f1.trans hcols) (f2.trans hlines) h
      exact ⟨g1.trans a2, g2.trans a3, Or.inl ⟨offset, hoff, by rw [haddr, a1]⟩⟩
  · obtain ⟨g1, g2, offset, hoff, haddr⟩ := hLCD s _ _ r hcols hlines h
    exact ⟨g1, g2, Or.inl ⟨offset, hoff, haddr⟩⟩
  · obtain ⟨g1, g2, offset, hoff, haddr⟩ := hLCD s _ _ r hcols hlines h
    exact ⟨g1, g2, Or.inl ⟨offset, hoff, haddr⟩⟩
  · rename_i n1 n2 n3 n4 n5
    have e1 : (writeLCD s (ch % 256))._cols = s._cols := by simp [writeLCD, send_fields]
    have e2 : (writeLCD s (ch % 256))._lines = s._lines := by simp [writeLCD, send_fields]
    have e3 : (writeLCD s (ch % 256))._row = s._row := by simp [writeLCD, send_fields]
    have e4 : (writeLCD s (ch % 256))._col = s._col := by simp [writeLCD, send_fields]
    have e5 : (writeLCD s (ch % 256))._entrymode = s._entrymode := by
      simp [writeLCD, send_fields]
    have e6 : (writeLCD s (ch % 256))._displaycontrol = s._displaycontrol := by
      simp [writeLCD, send_fields]
    have e7 : addressCommands (writeLCD s (ch % 256)).bus = addressCommands s.bus :=
      addressCommands_send_data s _
    simp only [] at h
    split at h
    · obtain ⟨g1, g2, offset, hoff, haddr⟩ :=
        hLCD _ _ _ r (by exact e1.trans hcols) (by exact e2.trans hlines) h
      exact ⟨g1.trans e5, g2.trans e6, Or.inl ⟨offset, hoff, haddr.trans (by rw [← e7])⟩⟩
    · cases h
      refine ⟨e5, e6, Or.inr ⟨e7, Or.inr (Or.inl ⟨⟨n1, n2, n3, n5, n4⟩, e3, ?_⟩)⟩⟩
      show (writeLCD s (ch % 256))._col + 1 = s._col + 1
      rw [e4]

theorem perform_track (fuel : Nat) (s s' : State) (columns lines : Nat) (op : Op)
    (hc : 1 ≤ columns) (hl : 1 ≤ lines) (hl4 : lines ≤ 4)
    (hcols : s._cols = (columns : Int)) (hlines : s._lines = (lines : Int))
    (hem : s._entrymode < 4) (hdc : s._displaycontrol < 8)
    (h : perform fuel s op = Except.ok s') :
    s'._entrymode < 4 ∧ s'._displaycontrol < 8
      ∧ ((∃ offset, row_offsets[s'._row]? = some offset
            ∧ addressCommands s'.bus =
              addressCommands s.bus ++ [(0x80 ||| (offset + s'._col)) % 256])
          ∨ (addressCommands s'.bus = addressCommands s.bus
            ∧ ((s'._row = s._row ∧ s'._col = s._col)
              ∨ ((∃ ch, op = Op.write ch ∧ isGlyph ch)
                  ∧ s'._row = s._row ∧ s'._col = s._col + 1)
              ∨ ((op = Op.clear ∨ op = Op.init ∨ ∃ ch, op = Op.write ch ∧ ch % 256 = 0x01)
                  ∧ s'._row = 0 ∧ s'._col = 0)))) := by
  have hem2 : s._entrymode < 2 ^ 2 := hem
  have hdc3 : s._displaycontrol < 2 ^ 3 := hdc
  have dcmd : ∀ x : Nat, x < 2 ^ 3 →
      (_send { s with _displaycontrol := x } (0x08 ||| x) false)._entrymode < 4
        ∧ (_send { s with _displaycontrol := x } (0x08 ||| x) false)._displaycontrol < 8
        ∧ addressCommands (_send { s with _displaycontrol := x } (0x08 ||| x) false).bus
            = addressCommands s.bus
        ∧ (_send { s with _displaycontrol := x } (0x08 ||| x) false)._row = s._row
        ∧ (_send { s with _displaycontrol := x } (0x08 ||| x) false)._col = s._col := by
    intro x hx
    refine ⟨by simpa [send_fields] using hem, by simpa [send_fields] using hx,
      addressCommands_send_small { s with _displaycontrol := x } _ (display_command_small x hx),
      by simp [send_fields], by simp [send_fields]⟩
  have ecmd : ∀ x : Nat, x < 2 ^ 2 →
      (_send { s with _entrymode := x } (0x04 ||| x) false)._entrymode < 4
        ∧ (_send { s with _entrymode := x } (0x04 ||| x) false)._displaycontrol < 8
        ∧ addressCommands (_send { s with _entrymode := x } (0x04 ||| x) false).bus
            = addressCommands s.bus
        ∧ (_send { s with _entrymode := x } (0x04 ||| x) false)._row = s._row
        ∧ (_send { s with _entrymode := x } (0x04 ||| x) false)._col = s._col := by
    intro x hx
    refine ⟨by simpa [send_fields] using hx, by simpa [send_fields] using hdc,
      addressCommands_send_small { s with _entrymode := x } _ (entry_command_small x hx),
      by simp [send_fields], by simp [send_fields]⟩
  have plain : ∀ (t : State) (v : Nat), t._entrymode = s._entrymode →
      t._displaycontrol = s._displaycontrol → t.bus = s.bus → t._row = s._row →
      t._col = s._col → v % 256 < 0x80 →
      (_send t v false)._entrymode < 4 ∧ (_send t v false)._displaycontrol < 8
        ∧ addressCommands (_send t v false).bus = addressCommands s.bus
        ∧ (_send t v false)._row = s._row ∧ (_send t v false)._col = s._col := by
    intro t v t1 t2 t3 t4 t5 hv
    refine ⟨by simpa [send_fields, t1] using hem, by simpa [send_fields, t2] using hdc,
      by rw [addressCommands_send_small t v hv, t3], by simp [send_fields, t4],
      by simp [send_fields, t5]⟩
  have same : ∀ t : State, t._entrymode < 4 ∧ t._displaycontrol < 8
        ∧ addressCommands t.bus = addressCommands s.bus ∧ t._row = s._row ∧ t._col = s._col →
      t._entrymode < 4 ∧ t._displaycontrol < 8
      ∧ ((∃ offset, row_offsets[t._row]? = some offset
            ∧ addressCommands t.bus =
              addressCommands s.bus ++ [(0x80 ||| (offset + t._col)) % 256])
          ∨ (addressCommands t.bus = addressCommands s.bus
            ∧ ((t._row = s._row ∧ t._col = s._col)
              ∨ ((∃ ch, op = Op.write ch ∧ isGlyph ch)
                  ∧ t._row = s._row ∧ t._col = s._col + 1)
              ∨ ((op = Op.clear ∨ op = Op.init ∨ ∃ ch, op = Op.write ch ∧ ch % 256 = 0x01)
                  ∧ t._row = 0 ∧ t._col = 0)))) :=
    fun t ht => ⟨ht.1, ht.2.1, Or.inr ⟨ht.2.2.1, Or.inl ht.2.2.2⟩⟩
  have hclear : (clear s)._entrymode < 4 ∧ (clear s)._displaycontrol < 8
      ∧ addressCommands (clear s).bus = addressCommands s.bus
      ∧ (clear s)._row = 0 ∧ (clear s)._col = 0 := by
    have hf := clear_fields s
    exact ⟨by rw [hf.2.2.2.2.1]; exact hem, by rw [hf.2.2.2.2.2.1]; exact hdc,
      addressCommands_clear s hem hdc, hf.2.2.1, hf.2.2.2.1⟩
  cases op with
  | clear =>
    cases h
    exact ⟨hclear.1, hclear.2.1, Or.inr ⟨hclear.2.2.1,
      Or.inr (Or.inr ⟨Or.inl rfl, hclear.2.2.2⟩)⟩⟩
  | init =>
    cases h
    exact ⟨hclear.1, hclear.2.1, Or.inr ⟨hclear.2.2.1,
      Or.inr (Or.inr ⟨Or.inr (Or.inl rfl), hclear.2.2.2⟩)⟩⟩
  | home =>
    obtain ⟨g1, g2, g3⟩ := setCursor_track s columns lines 0 0 hc hl hl4 hcols hlines s' h
    refine ⟨by rw [g1]; exact hem, by rw [g2]; exact hdc, ?_⟩
    rcases g3 with g | g
    · exact Or.inl g
    · exact Or.inr ⟨g.1, Or.inl g.2⟩
  | setCursor col row =>
    obtain ⟨g1, g2, g3⟩ := setCursor_track s columns lines col row hc hl hl4 hcols hlines s' h
    refine ⟨by rw [g1]; exact hem, by rw [g2]; exact hdc, ?_⟩
    rcases g3 with g | g
    · exact Or.inl g
    · exact Or.inr ⟨g.1, Or.inl g.2⟩
  | noDisplay => cases h; exact same _ (dcmd _ (andNot_lt_two_pow _ _ 3 hdc3))
  | display => cases h; exact same _ (dcmd _ (Nat.or_lt_two_pow hdc3 (by decide)))
  | cursor => cases h; exact same _ (dcmd _ (Nat.or_lt_two_pow hdc3 (by decide)))
  | noCursor => cases h; exact same _ (dcmd _ (andNot_lt_two_pow _ _ 3 hdc3))
  | blink => cases h; exact same _ (dcmd _ (Nat.or_lt_two_pow hdc3 (by decide)))
  | noBlink => cases h; exact same _ (dcmd _ (andNot_lt_two_pow _ _ 3 hdc3))
  | scrollDisplayLeft =>
    cases h
    exact same _ (plain s _ rfl rfl rfl rfl rfl (by decide))
  | scrollDisplayRight =>
    cases h
    exact same _ (plain s _ rfl rfl rfl rfl rfl (by decide))
  | leftToRight => cases h; exact same _ (ecmd _ (Nat.or_lt_two_pow hem2 (by decide)))
  | rightToLeft => cases h; exact same _ (ecmd _ (andNot_lt_two_pow _ _ 2 hem2))
  | autoscroll => cases h; exact same _ (ecmd _ (Nat.or_lt_two_pow hem2 (by decide)))
  | noAutoscroll => cases h; exact same _ (ecmd _ (andNot_lt_two_pow _ _ 2 hem2))
  | setBacklight brightness =>
    cases h
    exact same _ (plain { s with _backlight := brightness } _ rfl rfl rfl rfl rfl (by decide))
  | createChar location charmap =>
    simp only [perform, createChar] at h
    obtain ⟨k, hk, -, hkn, hor⟩ := cgram_command location
    have hf := createChar_fold_fields charmap _ _ _ h
    have ht := createChar_fold_track charmap _ _ _ h
    have hsmall : (0x40 ||| ((location % 8).toNat <<< 3)) % 256 < 0x80 := by
      rw [hkn, hor]
      omega
    have hp := plain s (0x40 ||| ((location % 8).toNat <<< 3)) rfl rfl rfl rfl rfl hsmall
    simp only [isDataDefault] at hf ht
    exact same _ ⟨by rw [ht.2.1]; exact hp.1, by rw [ht.2.2]; exact hp.2.1,
      ht.1.trans hp.2.2.1, hf.2.2.1.trans hp.2.2.2.1, hf.2.2.2.trans hp.2.2.2.2⟩
  | write ch =>
    simp only [perform] at h
    cases hw : write fuel s ch with
    | error f => rw [hw] at h; cases h
    | ok r =>
      rw [hw] at h
      cases h
      obtain ⟨g1, g2, g3⟩ :=
        write_track fuel s columns lines ch hc hl hl4 hcols hlines hem hdc r hw
      refine ⟨by rw [g1]; exact hem, by rw [g2]; exact hdc, ?_⟩
      rcases g3 with g | ⟨ga, g | g | g⟩
      · exact Or.inl g
      · exact Or.inr ⟨ga, Or.inl g⟩
      · exact Or.inr ⟨ga, Or.inr (Or.inl ⟨⟨ch, rfl, g.1⟩, g.2⟩)⟩
      · exact Or.inr ⟨ga, Or.inr (Or.inr ⟨Or.inr (Or.inr ⟨ch, rfl, g.1⟩), g.2⟩)⟩

theorem reachable_inv (columns lines : Nat)
    (hc : 1 ≤ columns) (hl : 1 ≤ lines) (hl4 : lines ≤ 4)
    (s : State) (hs : Reachable columns lines s) :
    s._cols = (columns : Int) ∧ s._lines = (lines : Int) ∧ cursorInRange s
      ∧ s._entrymode < 4 ∧ s._displaycontrol < 8 := by
  induction hs with
  | start raw =>
    have hf := begin_fields raw columns lines
    have hm := begin_modes raw columns lines
    refine ⟨hf.1, hf.2.1, ?_, by rw [hm.1]; decide, by rw [hm.2]; decide⟩
    simp only [cursorInRange, hf.1, hf.2.1, hf.2.2.1, hf.2.2.2.1]
    omega
  | step fuel op s s' _ hp ih =>
    obtain ⟨i1, i2, i3, i4, i5⟩ := ih
    obtain ⟨g1, g2, g3⟩ := perform_inv fuel s s' columns lines op hc hl hl4 i1 i2 i3 hp
    obtain ⟨t1, t2, -⟩ := perform_track fuel s s' columns lines op hc hl hl4 i1 i2 i4 i5 hp
    exact ⟨g1, g2, g3, t1, t2⟩

/-! ## Transport properties -/

/-- C1: for a nibble `n < 16`, `_writePCF` appends to the bus exactly the
writes `P ++ [frame | 0x04, frame]`, where `P = [frame]` when `isData` differs
from the stored register-select flag and `P = []` otherwise; afterwards the
flag equals `isData`; no written byte has the RW bit (0x02) set. -/
theorem writePCF_writes (s : State) (n : Nat) (isData : Bool) (hn : n < 16) :
    (_writePCF s n isData).bus =
        s.bus ++ ((if isData ≠ s.i2cDataState then [frame s._backlight n isData] else [])
          ++ [frame s._backlight n isData ||| 0x04, frame s._backlight n isData]).map
            BusEvent.write
      ∧ (_writePCF s n isData).i2cDataState = isData
      ∧ ∀ b ∈ (if isData ≠ s.i2cDataState then [frame s._backlight n isData] else [])
          ++ [frame s._backlight n isData ||| 0x04, frame s._backlight n isData],
          b &&& PCF_RW = 0 := by
  have hb := frame_bits s._backlight n isData hn
  refine ⟨?_, ?_, ?_⟩
  · rw [writePCF_eq, i2cData_eq_frame _ _ _ hn]
    simp [preWrite, PCF_EN]
  · rw [writePCF_eq]
  · intro b hmem
    have hb2 : b = frame s._backlight n isData ∨ b = frame s._backlight n isData ||| 0x04 := by
      split at hmem <;> simp at hmem <;> tauto
    unfold PCF_RW
    rcases hb2 with h | h <;> subst h
    · exact hb.2.2.2.2.2.1
    · exact hb.2.2.2.2.2.2.1

/-- C2: round trip of `_send`.  For every byte `b`, the events logged by
`_send s b isData` are one `beginTransmission`, a list `ws` of writes, one
`endTransmission`; exactly two of the writes have the enable bit set, `e1`
then `e2`; `e1` carries the high nibble and `e2` the low nibble of `b`, so
`(hi << 4) | lo = b`; every written byte carries RS = `isData` and
backlight bit = (`_backlight > 0`). -/
theorem send_round_trip (s : State) (b : Nat) (isData : Bool) (hb : b < 256) :
    ∃ (ws : List Nat) (e1 e2 : Nat),
      (_send s b isData).bus =
          s.bus ++ [BusEvent.beginTransmission s._i2cAddr]
            ++ ws.map BusEvent.write ++ [BusEvent.endTransmission]
      ∧ ws.filter (fun w => decide (w &&& PCF_EN ≠ 0)) = [e1, e2]
      ∧ e1 >>> 4 = b >>> 4 ∧ e2 >>> 4 = b &&& 0x0F
      ∧ ((e1 >>> 4) <<< 4) ||| (e2 >>> 4) = b
      ∧ ∀ w ∈ ws, (w &&& PCF_RS ≠ 0 ↔ isData = true)
          ∧ (w &&& PCF_BACKLIGHT ≠ 0 ↔ 0 < s._backlight) := by
  obtain ⟨hhi, hlo, hcat⟩ := nibbles b hb
  have fh := frame_bits s._backlight (b >>> 4) isData hhi
  have fl := frame_bits s._backlight (b &&& 0x0F) isData hlo
  have hmod : b % 256 = b := Nat.mod_eq_of_lt hb
  refine ⟨preWrite s.i2cDataState isData (frame s._backlight (b >>> 4) isData)
      ++ [frame s._backlight (b >>> 4) isData ||| 0x04, frame s._backlight (b >>> 4) isData,
          frame s._backlight (b &&& 0x0F) isData ||| 0x04, frame s._backlight (b &&& 0x0F) isData],
    frame s._backlight (b >>> 4) isData ||| 0x04,
    frame s._backlight (b &&& 0x0F) isData ||| 0x04, ?_, ?_, ?_, ?_, ?_, ?_⟩
  · rw [send_eq, hmod, i2cData_eq_frame _ _ _ hhi, i2cData_eq_frame _ _ _ hlo]
    simp [PCF_EN]
  · unfold preWrite PCF_EN
    split <;> simp [List.filter, fh, fl]
  · exact fh.2.2.1
  · exact fl.2.2.1
  · rw [fh.2.2.1, fl.2.2.1]; exact hcat
  · intro w hw
    have hw2 : w = frame s._backlight (b >>> 4) isData
        ∨ w = frame s._backlight (b >>> 4) isData ||| 0x04
        ∨ w = frame s._backlight (b &&& 0x0F) isData
        ∨ w = frame s._backlight (b &&& 0x0F) isData ||| 0x04 := by
      unfold preWrite at hw
      split at hw <;> simp at hw <;> tauto
    unfold PCF_RS PCF_BACKLIGHT
    rcases hw2 with h | h | h | h <;> subst h
    · rw [fh.2.2.2.2.2.2.2.1, fh.2.2.2.2.2.2.2.2.2.1]
      cases isData <;> by_cases hbl : 0 < s._backlight <;> simp [hbl]
    · rw [fh.2.2.2.2.2.2.2.2.1, fh.2.2.2.2.2.2.2.2.2.2]
      cases isData <;> by_cases hbl : 0 < s._backlight <;> simp [hbl]
    · rw [fl.2.2.2.2.2.2.2.1, fl.2.2.2.2.2.2.2.2.2.1]
      cases isData <;> by_cases hbl : 0 < s._backlight <;> simp [hbl]
    · rw [fl.2.2.2.2.2.2.2.2.1, fl.2.2.2.2.2.2.2.2.2.2]
      cases isData <;> by_cases hbl : 0 < s._backlight <;> simp [hbl]

/-- C3, as stated, fails: on a device fresh from `begin(16, 2)` (whose last
transfer was a command), `_send(0x80, false)` followed by `_send(0x41, true)`
emits the stable-level pre-write only in the second call, not in both. -/
theorem send_prewrite_not_in_both :
    stablePreWrite (emitted sampleState (_send sampleState 0x80 false)) = false
      ∧ stablePreWrite (emitted (_send sampleState 0x80 false)
          (_send (_send sampleState 0x80 false) 0x41 true)) = true := by
  constructor <;> rfl

/-- C3, amended: after `_send(x, d)`, (1) a following `_send(y, d)` logs exactly
the four strobe writes `hi|EN, hi, lo|EN, lo` inside its transaction, with no
pre-write; (2) a following `_send(y, !d)` logs the pre-write `hi` first and
then the four strobe writes; the first call `_send(x, d)` itself starts with a
pre-write exactly when the flag stored before it differs from `d`. -/
theorem send_coalescing (s : State) (x y : Nat) (d : Bool) (hy : y < 256) :
    emitted (_send s x d) (_send (_send s x d) y d) =
        [BusEvent.beginTransmission s._i2cAddr,
         BusEvent.write (frame s._backlight (y >>> 4) d ||| PCF_EN),
         BusEvent.write (frame s._backlight (y >>> 4) d),
         BusEvent.write (frame s._backlight (y &&& 0x0F) d ||| PCF_EN),
         BusEvent.write (frame s._backlight (y &&& 0x0F) d),
         BusEvent.endTransmission]
      ∧ emitted (_send s x d) (_send (_send s x d) y (!d)) =
        [BusEvent.beginTransmission s._i2cAddr,
         BusEvent.write (frame s._backlight (y >>> 4) (!d)),
         BusEvent.write (frame s._backlight (y >>> 4) (!d) ||| PCF_EN),
         BusEvent.write (frame s._backlight (y >>> 4) (!d)),
         BusEvent.write (frame s._backlight (y &&& 0x0F) (!d) ||| PCF_EN),
         BusEvent.write (frame s._backlight (y &&& 0x0F) (!d)),
         BusEvent.endTransmission]
      ∧ stablePreWrite (emitted (_send s x d) (_send (_send s x d) y d)) = false
      ∧ stablePreWrite (emitted (_send s x d) (_send (_send s x d) y (!d))) = true
      ∧ (stablePreWrite (emitted s (_send s x d)) = true ↔ s.i2cDataState ≠ d) := by
  obtain ⟨hhi, hlo, -⟩ := nibbles y hy
  obtain ⟨xhi, -, -⟩ := nibbles (x % 256) (Nat.mod_lt x (by decide))
  have hmod : y % 256 = y := Nat.mod_eq_of_lt hy
  have hst : (_send s x d).i2cDataState = d := by rw [send_eq]
  have hbl : (_send s x d)._backlight = s._backlight := by rw [send_eq]
  have had : (_send s x d)._i2cAddr = s._i2cAddr := by rw [send_eq]
  have e1 : emitted (_send s x d) (_send (_send s x d) y d) = _ := emitted_send _ y d
  have e2 : emitted (_send s x d) (_send (_send s x d) y (!d)) = _ := emitted_send _ y (!d)
  have e0 : emitted s (_send s x d) = _ := emitted_send s x d
  rw [hst, hbl, had, hmod, i2cData_eq_frame _ _ _ hhi, i2cData_eq_frame _ _ _ hlo] at e1 e2
  rw [i2cData_eq_frame _ _ _ xhi] at e0
  have fd := frame_bits s._backlight (y >>> 4) d hhi
  have fn := frame_bits s._backlight (y >>> 4) (!d) hhi
  have fx := frame_bits s._backlight ((x % 256) >>> 4) d xhi
  have p1 : preWrite d d (frame s._backlight (y >>> 4) d) = [] := by simp [preWrite]
  have p2 : preWrite d (!d) (frame s._backlight (y >>> 4) (!d))
      = [frame s._backlight (y >>> 4) (!d)] := by cases d <;> simp [preWrite]
  rw [p1] at e1
  rw [p2] at e2
  refine ⟨by rw [e1]; rfl, by rw [e2]; rfl, ?_, ?_, ?_⟩
  · rw [e1]
    simp [stablePreWrite, writesOf, PCF_EN, fd]
  · rw [e2]
    simp [stablePreWrite, writesOf, PCF_EN, fn]
  · rw [e0]
    cases hs : s.i2cDataState <;> cases d <;>
      simp [stablePreWrite, writesOf, PCF_EN, preWrite, fx]

/-! ## Cursor addressing -/

theorem setCursor_cases (s : State) (columns lines col row : Nat)
    (hc : 1 ≤ columns) (hl : 1 ≤ lines) (hl4 : lines ≤ 4)
    (hcols : s._cols = (columns : Int)) (hlines : s._lines = (lines : Int))
    (hcol : col < 256) (hrow : row < 256) :
    (s._col = col ∧ s._row = row → setCursor s col row = Except.ok s)
      ∧ (¬ (s._col = col ∧ s._row = row) →
          ∃ offset, [0x00, 0x40, 0x14, 0x54][row % lines]? = some offset
            ∧ setCursor s col row =
              Except.ok { _send s (0x80 ||| (offset + col % columns)) false with
                _col := col % columns, _row := row % lines }) := by
  have h1 : col % 256 = col := Nat.mod_eq_of_lt hcol
  have h2 : row % 256 = row := Nat.mod_eq_of_lt hrow
  constructor
  · rintro ⟨e1, e2⟩
    simp [setCursor, h1, h2, e1, e2]
  · intro hne
    have hr : row % lines < 4 := lt_of_lt_of_le (Nat.mod_lt _ (by omega)) hl4
    obtain ⟨offset, hoff⟩ := row_offsets_lookup (row % lines) hr
    refine ⟨offset, hoff, ?_⟩
    have hcond : s._col ≠ col ∨ s._row ≠ row := by
      by_contra hcon
      push_neg at hcon
      exact hne hcon
    unfold setCursor
    simp only [h1, h2, hcond, if_true]
    exact setCursorLCD_eq s columns lines col row offset hc hl hcols hlines hcol hrow hoff

/-- C4: with `_cols = columns >= 1` and `_lines = lines` in 1..4, and byte
arguments, `setCursor(col, row)` returns the state untouched (nothing logged)
when `(col, row)` is the stored cursor; otherwise the result is that of the
single command `_send(0x80 | (offset[row mod lines] + col mod columns), false)`
with the stored cursor set to `(col mod columns, row mod lines)`. -/
theorem setCursor_spec (s : State) (columns lines col row : Nat)
    (hc : 1 ≤ columns) (hl : 1 ≤ lines) (hl4 : lines ≤ 4)
    (hcols : s._cols = (columns : Int)) (hlines : s._lines = (lines : Int))
    (hcol : col < 256) (hrow : row < 256) :
    (s._col = col ∧ s._row = row →
        setCursor s col row = Except.ok s ∧ emitted s s = [])
      ∧ (¬ (s._col = col ∧ s._row = row) →
          ∃ offset, [0x00, 0x40, 0x14, 0x54][row % lines]? = some offset
            ∧ setCursor s col row =
              Except.ok { _send s (0x80 ||| (offset + col % columns)) false with
                _col := col % columns, _row := row % lines }) := by
  obtain ⟨h1, h2⟩ := setCursor_cases s columns lines col row hc hl hl4 hcols hlines hcol hrow
  exact ⟨fun h => ⟨h1 h, emitted_append s s [] (by simp)⟩, h2⟩

/-- C5, as stated, fails: on a device fresh from `begin(16, 2)` the stored
cursor is already (0, 0), and `setCursor(0, 0)` twice opens no transaction at
all, not one. -/
theorem setCursor_twice_no_command :
    setCursorTwice sampleState 0 0 = Except.ok sampleState
      ∧ transactions (emitted sampleState sampleState) = 0 := by
  constructor <;> rfl

/-- C5, amended: for `col < columns`, `row < lines`, two consecutive
`setCursor(col, row)` succeed and leave the cursor at `(col, row)`; together
they issue exactly one command (that of the first call) when the stored
cursor differed from `(col, row)`, and none when it already was `(col, row)`. -/
theorem setCursor_twice (s : State) (columns lines col row : Nat)
    (hl4 : lines ≤ 4)
    (hcols : s._cols = (columns : Int)) (hlines : s._lines = (lines : Int))
    (hcol : col < columns) (hrow : row < lines) (hbyte : col < 256) :
    ∃ s', setCursorTwice s col row = Except.ok s'
      ∧ s'._col = col ∧ s'._row = row
      ∧ (¬ (s._col = col ∧ s._row = row) →
          transactions (emitted s s') = 1
          ∧ ∃ offset, [0x00, 0x40, 0x14, 0x54][row]? = some offset
            ∧ s' = { _send s (0x80 ||| (offset + col)) false with _col := col, _row := row })
      ∧ (s._col = col ∧ s._row = row → transactions (emitted s s') = 0 ∧ s' = s) := by
  have hrb : row < 256 := by omega
  have hspec := setCursor_cases s columns lines col row (by omega) (by omega) hl4
    hcols hlines hbyte hrb
  rw [Nat.mod_eq_of_lt hcol, Nat.mod_eq_of_lt hrow] at hspec
  by_cases hcur : s._col = col ∧ s._row = row
  · refine ⟨s, ?_, hcur.1, hcur.2, fun h => absurd hcur h, fun _ => ⟨?_, rfl⟩⟩
    · unfold setCursorTwice
      rw [hspec.1 hcur]
      exact hspec.1 hcur
    · simp [emitted, transactions]
  · obtain ⟨offset, hoff, hres⟩ := hspec.2 hcur
    refine ⟨{ _send s (0x80 ||| (offset + col)) false with _col := col, _row := row },
      ?_, rfl, rfl, fun _ => ⟨?_, offset, hoff, rfl⟩, fun h => absurd h hcur⟩
    · unfold setCursorTwice
      rw [hres]
      simp [Except.bind, setCursor, Nat.mod_eq_of_lt hbyte, Nat.mod_eq_of_lt hrb]
    · exact transactions_send s _ false

/-- C7: out-of-range addressing is never an error.  With `_cols >= 1` and
`_lines` in 1..4, `setCursorLCD(col, row)` returns a state for all arguments
(in particular for all byte values 0..255): neither `%=` divides by zero and
the index into `row_offsets` is within its four entries, so no fault arises. -/
theorem setCursorLCD_total (s : State) (columns lines col row : Nat)
    (hc : 1 ≤ columns) (hl : 1 ≤ lines) (hl4 : lines ≤ 4)
    (hcols : s._cols = (columns : Int)) (hlines : s._lines = (lines : Int)) :
    (∃ s', setCursorLCD s col row = Except.ok s')
      ∧ (∀ f, setCursorLCD s col row ≠ Except.error f)
      ∧ s._cols ≠ 0 ∧ s._lines ≠ 0
      ∧ (Int.tmod ((row % 256 : Nat) : Int) s._lines).toNat % 256 < row_offsets.length := by
  obtain ⟨offset, -, hres⟩ := setCursorLCD_any s columns lines col row hc hl hl4 hcols hlines
  refine ⟨⟨_, hres⟩, ?_, by omega, by omega, ?_⟩
  · intro f hf
    rw [hres] at hf
    cases hf
  · rw [hlines, ← Int.ofNat_tmod, Int.toNat_ofNat]
    have h1 : row % 256 % lines < lines := Nat.mod_lt _ (by omega)
    have h2 : row % 256 % lines % 256 ≤ row % 256 % lines := Nat.mod_le _ _
    simp only [row_offsets, List.length_cons, List.length_nil]
    omega

/-! ## Character sink -/

/-- C8: glyph write.  For a cursor inside the geometry and a byte `ch` outside
{0x01, 0x02, 0x03, 0x0A, 0x0D}, `write(ch)` returns 1 and first performs
`_send(ch, true)`.  If `_col + 1 < columns` that is all, and the cursor
becomes `(_col + 1, _row)`.  If `_col + 1 = columns` one more command
`0x80 | (offset[(_row + 1) mod lines] + 0)` follows and the cursor becomes
`(0, (_row + 1) mod lines)`; from the last row this is row 0. -/
theorem write_glyph (fuel : Nat) (s : State) (columns lines ch : Nat)
    (hl4 : lines ≤ 4)
    (hcols : s._cols = (columns : Int)) (hlines : s._lines = (lines : Int))
    (hcol : s._col < columns) (hrow : s._row < lines)
    (hch : ch < 256)
    (hne : ch ≠ 0x01 ∧ ch ≠ 0x02 ∧ ch ≠ 0x03 ∧ ch ≠ 0x0A ∧ ch ≠ 0x0D) :
    (s._col + 1 < columns →
        write fuel s ch = Except.ok ({ _send s ch true with _col := s._col + 1 }, 1))
      ∧ (s._col + 1 = columns →
          ∃ offset, [0x00, 0x40, 0x14, 0x54][(s._row + 1) % lines]? = some offset
            ∧ write fuel s ch =
              Except.ok ({ _send (_send s ch true) (0x80 ||| (offset + 0)) false with
                _col := 0, _row := (s._row + 1) % lines }, 1))
      ∧ (s._row + 1 = lines → (s._row + 1) % lines = 0)
      ∧ (s._col + 1 < columns ∨ s._col + 1 = columns) := by
  have hmod : ch % 256 = ch := Nat.mod_eq_of_lt hch
  have hw := write_glyph_eq fuel s ch hch hne
  refine ⟨?_, ?_, ?_, by omega⟩
  · intro hlt
    have hnot : ¬ (s._cols ≤ ((s._col + 1 : Nat) : Int)) := by rw [hcols]; omega
    rw [hw, if_neg hnot, writeLCD, hmod]
  · intro heq
    have hle : s._cols ≤ ((s._col + 1 : Nat) : Int) := by rw [hcols]; omega
    have hg := setCursorLCD_any { writeLCD s ch with _col := s._col + 1 } columns lines 0
      (s._row + 1) (by omega) (by omega) hl4
      (by simpa [writeLCD, (send_fields s (ch % 256) true).2.2.1] using hcols)
      (by simpa [writeLCD, (send_fields s (ch % 256) true).2.2.2.1] using hlines)
    obtain ⟨offset, hoff, hres⟩ := hg
    have hr256 : (s._row + 1) % 256 = s._row + 1 := Nat.mod_eq_of_lt (by omega)
    rw [hr256] at hoff hres
    refine ⟨offset, hoff, ?_⟩
    rw [hw, if_pos hle, hres]
    simp [Except.map, writeLCD, hmod, send_eq]
  · intro h
    rw [h]
    exact Nat.mod_self _

/-- C6: circular-addressing invariant.  For `columns >= 1` and `lines` in 1..4,
(a) after `begin(columns, lines)` the geometry is stored and the cursor is in
range (`_row < _lines`, `_col < _cols`); (b) every public operation that
returns keeps the geometry and leaves the cursor in range, whatever its
arguments; (c) with 256 units of fuel every operation does return, for
`createChar` given its eight pattern entries and for `write(0x03)` given
`columns <= 255`. -/
theorem cursor_in_range_invariant (columns lines : Nat)
    (hc : 1 ≤ columns) (hl : 1 ≤ lines) (hl4 : lines ≤ 4) :
    (∀ raw : State,
        (begin raw columns lines)._cols = (columns : Int)
          ∧ (begin raw columns lines)._lines = (lines : Int)
          ∧ cursorInRange (begin raw columns lines))
      ∧ (∀ (fuel : Nat) (op : Op) (s s' : State),
          s._cols = (columns : Int) → s._lines = (lines : Int) → cursorInRange s →
          perform fuel s op = Except.ok s' →
          s'._cols = (columns : Int) ∧ s'._lines = (lines : Int) ∧ cursorInRange s')
      ∧ (∀ (op : Op) (s : State),
          s._cols = (columns : Int) → s._lines = (lines : Int) → cursorInRange s →
          hasResult columns op → ∃ s', perform 256 s op = Except.ok s') := by
  refine ⟨?_, ?_, ?_⟩
  · intro raw
    have hf := begin_fields raw columns lines
    refine ⟨hf.1, hf.2.1, ?_⟩
    simp only [cursorInRange, hf.1, hf.2.1, hf.2.2.1, hf.2.2.2.1]
    omega
  · intro fuel op s s' hcols hlines hin h
    exact perform_inv fuel s s' columns lines op hc hl hl4 hcols hlines hin h
  · intro op s hcols hlines hin hop
    exact perform_returns s columns lines op hc hl hl4 hcols hlines hin hop

/-! ## End-to-end scenario -/

/-- C10, as stated, fails: on a device fresh from `begin(16, 2)`, writing
`H i \n t h e r e` leaves the cursor at row 1, column 7, not column 5, because
the newline keeps column 2. -/
theorem hi_there_cursor_not_column_5 :
    (writeAll 0 sampleState [0x48, 0x69, 0x0A, 0x74, 0x68, 0x65, 0x72, 0x65]).map
        (fun s => (s._row, s._col)) = Except.ok (1, 7)
      ∧ (writeAll 0 sampleState [0x48, 0x69, 0x0A, 0x74, 0x68, 0x65, 0x72, 0x65]).map
        (fun s => (s._row, s._col)) ≠ Except.ok (1, 5) := by
  have h : (writeAll 0 sampleState [0x48, 0x69, 0x0A, 0x74, 0x68, 0x65, 0x72, 0x65]).map
      (fun s => (s._row, s._col)) = Except.ok (1, 7) := rfl
  refine ⟨h, ?_⟩
  rw [h]
  intro hcon
  cases hcon

/-- C10, amended: from the state right after `begin(16, 2)` (cursor at row 0,
column 0), writing `H i \n t h e r e` byte by byte performs, in this order and
nothing else, the data sends `H`, `i`, the command `0x80 | (0x40 + 2)` (row 1,
column 2), and the data sends `t`, `h`, `e`, `r`, `e`; the cursor ends at
row 1, column 7.  So `H, i` start at (row 0, column 0) and `t, h, e, r, e`
start at (row 1, column 2). -/
theorem hi_there (fuel : Nat) (raw : State) :
    (begin raw 16 2)._row = 0 ∧ (begin raw 16 2)._col = 0
      ∧ writeAll fuel (begin raw 16 2) [0x48, 0x69, 0x0A, 0x74, 0x68, 0x65, 0x72, 0x65] =
        Except.ok { _send (_send (_send (_send (_send (_send (_send (_send (begin raw 16 2)
            0x48 true) 0x69 true) (0x80 ||| (0x40 + 2)) false)
            0x74 true) 0x68 true) 0x65 true) 0x72 true) 0x65 true with
          _col := 7, _row := 1 } := by
  have hf := begin_fields raw 16 2
  exact ⟨hf.2.2.1, hf.2.2.2.1,
    hi_there_aux fuel (begin raw 16 2) hf.1 hf.2.1 hf.2.2.1 hf.2.2.2.1⟩

/-! ## Re-initialisation -/

/-- C11: re-initialisation sequence.  For every state, `clear()` performs, in
this order and nothing else: `_send(0x01)`, `_sendNibble(0x02)`, a 2000 us
wait, `_send(0x2C)` if `_lines > 1` else `_send(0x24)`, `_send(0x04 | _entrymode)`,
`_send(0x08 | _displaycontrol)`, `_send(0x01)`, a 2000 us wait, all with
`isData = false`; the bus log grows by exactly the events of these transfers.
`init()` and `write(0x01)` do the same (the latter returning 1).  Afterwards
the cursor is (row 0, column 0) and entry mode, display control, backlight
level and geometry are unchanged. -/
theorem clear_sequence (fuel : Nat) (s : State) :
    clear s =
        { delayMicroseconds (_send (_send (_send (_send (delayMicroseconds
            (_sendNibble (_send s 0x01 false) 0x02 false) 2000)
            (if 1 < s._lines then 0x2C else 0x24) false)
            (0x04 ||| s._entrymode) false)
            (0x08 ||| s._displaycontrol) false)
            0x01 false) 2000 with _row := 0, _col := 0 }
      ∧ emitted s (clear s) =
        sendEvents s.i2cDataState s._i2cAddr s._backlight 0x01 false
          ++ nibbleEvents false s._i2cAddr s._backlight 0x02 false
          ++ [BusEvent.delayMicroseconds 2000]
          ++ sendEvents false s._i2cAddr s._backlight (if 1 < s._lines then 0x2C else 0x24) false
          ++ sendEvents false s._i2cAddr s._backlight ((0x04 ||| s._entrymode) % 256) false
          ++ sendEvents false s._i2cAddr s._backlight ((0x08 ||| s._displaycontrol) % 256) false
          ++ sendEvents false s._i2cAddr s._backlight 0x01 false
          ++ [BusEvent.delayMicroseconds 2000]
      ∧ init s = clear s
      ∧ write fuel s 0x01 = Except.ok (clear s, 1)
      ∧ (clear s)._row = 0 ∧ (clear s)._col = 0
      ∧ (clear s)._entrymode = s._entrymode
      ∧ (clear s)._displaycontrol = s._displaycontrol
      ∧ (clear s)._backlight = s._backlight
      ∧ (clear s)._cols = s._cols ∧ (clear s)._lines = s._lines := by
  have hf := clear_fields s
  refine ⟨?_, emitted_append s _ _ (clear_bus s), rfl, rfl, hf.2.2.1, hf.2.2.2.1, hf.2.2.2.2.1,
    hf.2.2.2.2.2.1, hf.2.2.2.2.2.2.1, hf.1, hf.2.1⟩
  unfold clear
  simp only [isDataDefault, delayMicroseconds, send_fields, sendNibble_fields]
  split <;> rfl

/-! ## Display control and entry mode -/

/-- C12: in the code `cursor()` and `blink()` set the same bit 0x01 of
`_displaycontrol`, and `noCursor()` and `noBlink()` clear that same bit: the
two pairs are the same functions.  Hence, for every state, `cursor()` followed
by `noBlink()` leaves the bit that `cursor()` set clear, and `blink()` after
`noCursor()` leaves the bit that `noCursor()` cleared set.  On a device fresh
from `begin(16, 2)` the values are 0x05 after `cursor()` and 0x04 after the
following `noBlink()`.  The display flag 0x04 keeps its own bit. -/
theorem cursor_blink_share_bit (s : State) :
    cursor s = blink s ∧ noCursor s = noBlink s
      ∧ (cursor s)._displaycontrol = s._displaycontrol ||| 0x01
      ∧ (cursor s)._displaycontrol.testBit 0 = true
      ∧ (noBlink (cursor s))._displaycontrol.testBit 0 = false
      ∧ (noCursor s)._displaycontrol.testBit 0 = false
      ∧ (blink (noCursor s))._displaycontrol.testBit 0 = true
      ∧ (cursor sampleState)._displaycontrol = 0x05
      ∧ (noBlink (cursor sampleState))._displaycontrol = 0x04
      ∧ (display s)._displaycontrol.testBit 2 = true
      ∧ (noDisplay s)._displaycontrol.testBit 2 = false := by
  have h1 : Nat.testBit 1 0 = true := by decide
  have h4 : Nat.testBit 4 2 = true := by decide
  refine ⟨rfl, rfl, ?_, ?_, ?_, ?_, ?_, rfl, rfl, ?_, ?_⟩
  · simp [cursor, send_fields]
  · simp [cursor, send_fields, h1]
  · have e : (noBlink (cursor s))._displaycontrol = andNot (s._displaycontrol ||| 0x01) 0x01 := by
      simp [noBlink, cursor, send_fields]
    rw [e, andNot_testBit, h1]
    simp
  · have e : (noCursor s)._displaycontrol = andNot s._displaycontrol 0x01 := by
      simp [noCursor, send_fields]
    rw [e, andNot_testBit, h1]
    simp
  · simp [blink, noCursor, send_fields, h1]
  · simp [display, send_fields, h4]
  · have e : (noDisplay s)._displaycontrol = andNot s._displaycontrol 0x04 := by
      simp [noDisplay, send_fields]
    rw [e, andNot_testBit, h4]
    simp

/-- C13: entry-mode mutators.  For every state, `leftToRight()` sets and
`rightToLeft()` clears bit 1 (0x02) of `_entrymode`, `autoscroll()` sets and
`noAutoscroll()` clears bit 0 (0x01), every other bit of `_entrymode` keeping
its value; each then performs the single command `_send(0x04 | _entrymode)`
with the new value (one transaction, `isData = false`) and leaves
`_displaycontrol` and the cursor unchanged. -/
theorem entry_mode_mutators (s : State) :
    (((leftToRight s)._entrymode.testBit 1 = true
        ∧ ∀ i, i ≠ 1 → (leftToRight s)._entrymode.testBit i = s._entrymode.testBit i)
      ∧ ((rightToLeft s)._entrymode.testBit 1 = false
        ∧ ∀ i, i ≠ 1 → (rightToLeft s)._entrymode.testBit i = s._entrymode.testBit i)
      ∧ ((autoscroll s)._entrymode.testBit 0 = true
        ∧ ∀ i, i ≠ 0 → (autoscroll s)._entrymode.testBit i = s._entrymode.testBit i)
      ∧ ((noAutoscroll s)._entrymode.testBit 0 = false
        ∧ ∀ i, i ≠ 0 → (noAutoscroll s)._entrymode.testBit i = s._entrymode.testBit i))
      ∧ ∀ t ∈ [leftToRight s, rightToLeft s, autoscroll s, noAutoscroll s],
          t = _send { s with _entrymode := t._entrymode } (0x04 ||| t._entrymode) false
            ∧ emitted s t = sendEvents s.i2cDataState s._i2cAddr s._backlight
                ((0x04 ||| t._entrymode) % 256) false
            ∧ transactions (emitted s t) = 1
            ∧ t._displaycontrol = s._displaycontrol ∧ t._row = s._row ∧ t._col = s._col := by
  have e1 : (leftToRight s)._entrymode = s._entrymode ||| 0x02 :=
    (entry_command s (s._entrymode ||| 0x02)).1
  have e2 : (rightToLeft s)._entrymode = andNot s._entrymode 0x02 :=
    (entry_command s (andNot s._entrymode 0x02)).1
  have e3 : (autoscroll s)._entrymode = s._entrymode ||| 0x01 :=
    (entry_command s (s._entrymode ||| 0x01)).1
  have e4 : (noAutoscroll s)._entrymode = andNot s._entrymode 0x01 :=
    (entry_command s (andNot s._entrymode 0x01)).1
  refine ⟨⟨?_, ?_, ?_, ?_⟩, ?_⟩
  · rw [e1]; exact or_two_bits _
  · rw [e2]; exact andNot_two_bits _
  · rw [e3]; exact or_one_bits _
  · rw [e4]; exact andNot_one_bits _
  · intro t ht
    simp only [List.mem_cons, List.mem_singleton, List.not_mem_nil, or_false] at ht
    rcases ht with h | h | h | h <;> subst h
    · rw [e1]; exact ⟨rfl, (entry_command s _).2⟩
    · rw [e2]; exact ⟨rfl, (entry_command s _).2⟩
    · rw [e3]; exact ⟨rfl, (entry_command s _).2⟩
    · rw [e4]; exact ⟨rfl, (entry_command s _).2⟩

/-! ## Scrolling and backlight -/

/-- C14, as stated, fails: the command bytes are the other way round.  On a
device fresh from `begin(16, 2)`, `scrollDisplayLeft()` strobes the nibbles 1
and 8 (command 0x18), which is not what `_send(0x1C, false)` writes. -/
theorem scroll_left_is_not_0x1C :
    writesOf (emitted sampleState (scrollDisplayLeft sampleState)) = [0x14, 0x10, 0x84, 0x80]
      ∧ writesOf (emitted sampleState (_send sampleState 0x1C false))
          = [0x14, 0x10, 0xC4, 0xC0]
      ∧ scrollDisplayLeft sampleState ≠ _send sampleState 0x1C false := by
  have h1 : writesOf (emitted sampleState (scrollDisplayLeft sampleState))
      = [0x14, 0x10, 0x84, 0x80] := rfl
  have h2 : writesOf (emitted sampleState (_send sampleState 0x1C false))
      = [0x14, 0x10, 0xC4, 0xC0] := rfl
  refine ⟨h1, h2, fun h => ?_⟩
  rw [h, h2] at h1
  revert h1
  decide

/-- C14, amended: for every state, `scrollDisplayLeft()` is exactly the single
command `_send(0x18, false)` and `scrollDisplayRight()` exactly the single
command `_send(0x1C, false)`; neither changes the cursor, `_entrymode` or
`_displaycontrol`. -/
theorem scroll_commands (s : State) :
    scrollDisplayLeft s = _send s 0x18 false
      ∧ scrollDisplayRight s = _send s 0x1C false
      ∧ emitted s (scrollDisplayLeft s)
          = sendEvents s.i2cDataState s._i2cAddr s._backlight 0x18 false
      ∧ emitted s (scrollDisplayRight s)
          = sendEvents s.i2cDataState s._i2cAddr s._backlight 0x1C false
      ∧ transactions (emitted s (scrollDisplayLeft s)) = 1
      ∧ transactions (emitted s (scrollDisplayRight s)) = 1
      ∧ ∀ t ∈ [scrollDisplayLeft s, scrollDisplayRight s],
          t._row = s._row ∧ t._col = s._col ∧ t._entrymode = s._entrymode
            ∧ t._displaycontrol = s._displaycontrol := by
  have hl : scrollDisplayLeft s = _send s 0x18 false := rfl
  have hr : scrollDisplayRight s = _send s 0x1C false := rfl
  refine ⟨hl, hr, ?_, ?_, ?_, ?_, ?_⟩
  · rw [hl]; exact emitted_append s _ _ (send_bus s 0x18 false)
  · rw [hr]; exact emitted_append s _ _ (send_bus s 0x1C false)
  · rw [hl]; exact transactions_send s _ false
  · rw [hr]; exact transactions_send s _ false
  · intro t ht
    simp only [List.mem_cons, List.mem_singleton, List.not_mem_nil, or_false] at ht
    rcases ht with h | h <;> subst h
    · rw [hl]; simp [send_fields]
    · rw [hr]; simp [send_fields]

/-- C15: backlight.  For every state and every integer `level`,
`setBacklight(level)` stores `level` and is exactly the single transfer
`_send(0x00, false)`; every byte it writes to the bus has data nibble 0, RS
bit 0, and the backlight bit 0x08 set if and only if `level > 0`; the cursor,
`_entrymode` and `_displaycontrol` are unchanged.  In the sequence
`setBacklight(0); setBacklight(5)` each call writes its own bit: clear in
every byte of the first call, set in every byte of the second. -/
theorem setBacklight_spec (s : State) (level : Int) :
    setBacklight s level = _send { s with _backlight := level } 0x00 false
      ∧ (setBacklight s level)._backlight = level
      ∧ emitted s (setBacklight s level)
          = sendEvents s.i2cDataState s._i2cAddr level 0x00 false
      ∧ transactions (emitted s (setBacklight s level)) = 1
      ∧ (∀ b ∈ writesOf (emitted s (setBacklight s level)),
          b >>> 4 = 0 ∧ b &&& 0x01 = 0 ∧ (b &&& 0x08 ≠ 0 ↔ 0 < level))
      ∧ (setBacklight s level)._row = s._row ∧ (setBacklight s level)._col = s._col
      ∧ (setBacklight s level)._entrymode = s._entrymode
      ∧ (setBacklight s level)._displaycontrol = s._displaycontrol
      ∧ (∀ b ∈ writesOf (emitted s (setBacklight s 0)), b &&& 0x08 = 0)
      ∧ (∀ b ∈ writesOf (emitted (setBacklight s 0) (setBacklight (setBacklight s 0) 5)),
          b &&& 0x08 = 0x08)
      ∧ transactions (emitted (setBacklight s 0) (setBacklight (setBacklight s 0) 5)) = 1
      ∧ (setBacklight (setBacklight s 0) 5)._row = s._row
      ∧ (setBacklight (setBacklight s 0) 5)._col = s._col := by
  refine ⟨rfl, by simp [setBacklight, send_fields],
    emitted_append s _ _ (send_bus { s with _backlight := level } 0x00 false),
    transactions_send { s with _backlight := level } _ false,
    fun b hb => ⟨(backlight_writes s level b hb).1, (backlight_writes s level b hb).2.1,
      (backlight_writes s level b hb).2.2.1⟩,
    by simp [setBacklight, send_fields], by simp [setBacklight, send_fields],
    by simp [setBacklight, send_fields], by simp [setBacklight, send_fields],
    fun b hb => (backlight_writes s 0 b hb).2.2.2,
    fun b hb => (backlight_writes (setBacklight s 0) 5 b hb).2.2.2,
    transactions_send { setBacklight s 0 with _backlight := 5 } _ false,
    by simp [setBacklight, send_fields], by simp [setBacklight, send_fields]⟩

/-! ## Custom glyphs -/

/-- C16: `createChar`.  For every integer `location` and every pattern of
eight integers, `createChar` returns (no fault) and is exactly the command
`_send(0x40 | ((location & 7) << 3), false)` followed by the eight data sends
`_send(pattern[i] mod 256, true)`, `i = 0..7` in order.  The slot
`location & 7` is the residue of `location` modulo 8, so the command byte is
`0x40 + 8 * k` with `k < 8`, one of 0x40, 0x48, ..., 0x78.  The cursor,
`_entrymode` and `_displaycontrol` are unchanged. -/
theorem createChar_spec (s : State) (location p0 p1 p2 p3 p4 p5 p6 p7 : Int) :
    (∃ k : Nat, k < 8 ∧ (k : Int) = Int.land location 7
        ∧ 0x40 ||| (k <<< 3) = 0x40 + 8 * k
        ∧ createChar s location [p0, p1, p2, p3, p4, p5, p6, p7] =
          Except.ok (_send (_send (_send (_send (_send (_send (_send (_send (_send s
            (0x40 ||| (k <<< 3)) false)
            (p0 % 256).toNat true) (p1 % 256).toNat true) (p2 % 256).toNat true)
            (p3 % 256).toNat true) (p4 % 256).toNat true) (p5 % 256).toNat true)
            (p6 % 256).toNat true) (p7 % 256).toNat true))
      ∧ ∀ s', createChar s location [p0, p1, p2, p3, p4, p5, p6, p7] = Except.ok s' →
          s'._row = s._row ∧ s'._col = s._col ∧ s'._entrymode = s._entrymode
            ∧ s'._displaycontrol = s._displaycontrol := by
  obtain ⟨k, hk, hkl, hkn, hor⟩ := cgram_command location
  have hrun : createChar s location [p0, p1, p2, p3, p4, p5, p6, p7] =
      Except.ok (_send (_send (_send (_send (_send (_send (_send (_send (_send s
        (0x40 ||| (k <<< 3)) false)
        (p0 % 256).toNat true) (p1 % 256).toNat true) (p2 % 256).toNat true)
        (p3 % 256).toNat true) (p4 % 256).toNat true) (p5 % 256).toNat true)
        (p6 % 256).toNat true) (p7 % 256).toNat true) := by
    unfold createChar
    rw [hkn]
    have hr : List.range 8 = [0, 1, 2, 3, 4, 5, 6, 7] := by decide
    rw [hr]
    simp [List.foldlM, createCharStep, writeLCD, byte_of_int, isDataDefault, bind, Except.bind]
    rfl
  refine ⟨⟨k, hk, by rw [land_seven]; exact hkl, hor, hrun⟩, ?_⟩
  intro s' hs'
  rw [hrun] at hs'
  cases hs'
  simp [send_fields]

/-! ## Clear to end of line -/

/-- C18: `home()` is `setCursor(0, 0)`.  For every state `home()`, and
`write(0x02)` up to its returned count 1, gives the same result and the same
bus log as `setCursor(0, 0)`.  It returns the state untouched, logging
nothing, when the stored cursor is (0, 0).  Otherwise, on a geometry with
non-zero `_cols` and `_lines` (where the two `%=` of `setCursorLCD` are
defined), it is exactly the single command `_send(0x80, false)` with the
cursor set to (0, 0).  Whatever it logs is nothing or the transfer of 0x80,
never the return-home command 0x02. -/
theorem home_is_setCursor_origin (fuel : Nat) (s : State) :
    home s = homeSpec s
      ∧ write fuel s 0x02 = (homeSpec s).map (fun t => (t, 1))
      ∧ (s._col = 0 ∧ s._row = 0 → home s = Except.ok s ∧ emitted s s = [])
      ∧ (¬ (s._col = 0 ∧ s._row = 0) → s._cols ≠ 0 → s._lines ≠ 0 →
          home s = Except.ok { _send s 0x80 false with _col := 0, _row := 0 }
            ∧ emitted s (_send s 0x80 false)
              = sendEvents s.i2cDataState s._i2cAddr s._backlight 0x80 false
            ∧ transactions (emitted s (_send s 0x80 false)) = 1)
      ∧ (∀ s', home s = Except.ok s' →
          emitted s s' = []
            ∨ emitted s s' = sendEvents s.i2cDataState s._i2cAddr s._backlight 0x80 false)
      ∧ writesOf (sendEvents s.i2cDataState s._i2cAddr s._backlight 0x80 false)
          ≠ writesOf (sendEvents s.i2cDataState s._i2cAddr s._backlight 0x02 false) := by
  have hzero : s._col = 0 ∧ s._row = 0 → home s = Except.ok s := by
    rintro ⟨e1, e2⟩
    simp [home, setCursor, e1, e2]
  have hmove : ¬ (s._col = 0 ∧ s._row = 0) → s._cols ≠ 0 → s._lines ≠ 0 →
      home s = Except.ok { _send s 0x80 false with _col := 0, _row := 0 } := by
    intro hne hc hl
    unfold home
    rw [setCursor_origin_of_ne s hne, setCursorLCD_origin s hc hl]
  have hfault : ¬ (s._col = 0 ∧ s._row = 0) → (s._cols = 0 ∨ s._lines = 0) →
      home s = Except.error Fault.divisionByZero := by
    intro hne hz
    unfold home
    rw [setCursor_origin_of_ne s hne, setCursorLCD_zero_geometry s 0 0 hz]
  refine ⟨rfl, rfl, fun h => ⟨hzero h, emitted_append s s [] (by simp)⟩,
    fun h1 h2 h3 => ⟨hmove h1 h2 h3, emitted_append s _ _ (send_bus s 0x80 false),
      transactions_send s _ false⟩, ?_, ?_⟩
  · intro s' hs'
    by_cases hcur : s._col = 0 ∧ s._row = 0
    · rw [hzero hcur] at hs'
      cases hs'
      exact Or.inl (emitted_append s s [] (by simp))
    · by_cases hz : s._cols = 0 ∨ s._lines = 0
      · rw [hfault hcur hz] at hs'
        cases hs'
      · push_neg at hz
        rw [hmove hcur hz.1 hz.2] at hs'
        cases hs'
        exact Or.inr (emitted_append s _ _ (send_bus s 0x80 false))
  · rw [writesOf_sendEvents, writesOf_sendEvents]
    unfold preWrite strobes frame
    cases s.i2cDataState <;> by_cases hb : 0 < s._backlight <;> simp [hb]

/-! ## Cursor tracking -/

/-- C20: the address map is injective on supported geometries.  For
`1 <= columns <= 20`, `1 <= lines <= 4` and positions `(c1, r1)`, `(c2, r2)`
inside the geometry, the table `row_offsets` has entries `o1`, `o2` for the two
rows, `setCursorLCD` sends `0x80 | (o + c)` for each position, both sums are
below 0x80 (so the OR with 0x80 keeps every bit of the address), and equal
command bytes imply equal positions. -/
theorem address_map_injective (s : State) (columns lines c1 r1 c2 r2 : Nat)
    (hc : 1 ≤ columns) (hc20 : columns ≤ 20) (hl : 1 ≤ lines) (hl4 : lines ≤ 4)
    (hcols : s._cols = (columns : Int)) (hlines : s._lines = (lines : Int))
    (h1 : c1 < columns) (h2 : r1 < lines) (h3 : c2 < columns) (h4 : r2 < lines) :
    ∃ o1 o2 : Nat,
      row_offsets[r1]? = some o1 ∧ row_offsets[r2]? = some o2
        ∧ setCursorLCD s c1 r1 =
          Except.ok { _send s (0x80 ||| (o1 + c1)) false with _col := c1, _row := r1 }
        ∧ setCursorLCD s c2 r2 =
          Except.ok { _send s (0x80 ||| (o2 + c2)) false with _col := c2, _row := r2 }
        ∧ o1 + c1 < 0x80 ∧ o2 + c2 < 0x80
        ∧ (0x80 ||| (o1 + c1)) &&& 0x7F = o1 + c1
        ∧ (0x80 ||| (o2 + c2)) &&& 0x7F = o2 + c2
        ∧ (0x80 ||| (o1 + c1) = 0x80 ||| (o2 + c2) → c1 = c2 ∧ r1 = r2) := by
  have hr1 : r1 < 4 := by omega
  have hr2 : r2 < 4 := by omega
  obtain ⟨o1, ho1⟩ := row_offsets_lookup r1 hr1
  obtain ⟨o2, ho2⟩ := row_offsets_lookup r2 hr2
  have e1 := setCursorLCD_eq s columns lines c1 r1 o1 hc hl hcols hlines (by omega) (by omega)
    (by rw [Nat.mod_eq_of_lt h2]; exact ho1)
  have e2 := setCursorLCD_eq s columns lines c2 r2 o2 hc hl hcols hlines (by omega) (by omega)
    (by rw [Nat.mod_eq_of_lt h4]; exact ho2)
  rw [Nat.mod_eq_of_lt h1, Nat.mod_eq_of_lt h2] at e1
  rw [Nat.mod_eq_of_lt h3, Nat.mod_eq_of_lt h4] at e2
  have b1 : o1 + c1 < 0x80 ∧ (r1 = 0 → o1 = 0) ∧ (r1 = 1 → o1 = 0x40) ∧ (r1 = 2 → o1 = 0x14)
      ∧ (r1 = 3 → o1 = 0x54) := by
    interval_cases r1 <;> simp [row_offsets] at ho1 <;> subst ho1 <;> omega
  have b2 : o2 + c2 < 0x80 ∧ (r2 = 0 → o2 = 0) ∧ (r2 = 1 → o2 = 0x40) ∧ (r2 = 2 → o2 = 0x14)
      ∧ (r2 = 3 → o2 = 0x54) := by
    interval_cases r2 <;> simp [row_offsets] at ho2 <;> subst ho2 <;> omega
  refine ⟨o1, o2, ho1, ho2, e1, e2, b1.1, b2.1, address_low_bits _ b1.1,
    address_low_bits _ b2.1, ?_⟩
  intro heq
  rw [address_or_eq_add _ b1.1, address_or_eq_add _ b2.1] at heq
  omega

/-! ## Concrete instances

Each property above that carries hypotheses is applied here to a device fresh
from `begin(16, 2)`, or to that device after `setCursor(5, 1)`, with the
hypotheses checked by evaluation. -/

theorem writePCF_writes_witness :
    0x0A < 16
      ∧ ((_writePCF sampleState 0x0A true).bus =
          sampleState.bus
            ++ ((if true ≠ sampleState.i2cDataState then
                  [frame sampleState._backlight 0x0A true] else [])
              ++ [frame sampleState._backlight 0x0A true ||| 0x04,
                  frame sampleState._backlight 0x0A true]).map BusEvent.write
        ∧ (_writePCF sampleState 0x0A true).i2cDataState = true
        ∧ ∀ b ∈ (if true ≠ sampleState.i2cDataState then
                  [frame sampleState._backlight 0x0A true] else [])
              ++ [frame sampleState._backlight 0x0A true ||| 0x04,
                  frame sampleState._backlight 0x0A true],
            b &&& PCF_RW = 0) :=
  ⟨by decide, writePCF_writes sampleState 0x0A true (by decide)⟩

theorem send_round_trip_witness :
    0x48 < 256
      ∧ ∃ (ws : List Nat) (e1 e2 : Nat),
        (_send sampleState 0x48 true).bus =
            sampleState.bus ++ [BusEvent.beginTransmission sampleState._i2cAddr]
              ++ ws.map BusEvent.write ++ [BusEvent.endTransmission]
        ∧ ws.filter (fun w => decide (w &&& PCF_EN ≠ 0)) = [e1, e2]
        ∧ e1 >>> 4 = 0x48 >>> 4 ∧ e2 >>> 4 = 0x48 &&& 0x0F
        ∧ ((e1 >>> 4) <<< 4) ||| (e2 >>> 4) = 0x48
        ∧ ∀ w ∈ ws, (w &&& PCF_RS ≠ 0 ↔ true = true)
            ∧ (w &&& PCF_BACKLIGHT ≠ 0 ↔ 0 < sampleState._backlight) :=
  ⟨by decide, send_round_trip sampleState 0x48 true (by decide)⟩

theorem send_coalescing_witness :
    0x69 < 256
      ∧ stablePreWrite (emitted (_send sampleState 0x48 true)
          (_send (_send sampleState 0x48 true) 0x69 true)) = false
      ∧ stablePreWrite (emitted (_send sampleState 0x48 true)
          (_send (_send sampleState 0x48 true) 0x69 (!true))) = true
      ∧ (stablePreWrite (emitted sampleState (_send sampleState 0x48 true)) = true
          ↔ sampleState.i2cDataState ≠ true) :=
  ⟨by decide, (send_coalescing sampleState 0x48 0x69 true (by decide)).2.2⟩

theorem setCursor_spec_witness :
    (1 ≤ 16 ∧ 1 ≤ 2 ∧ 2 ≤ 4 ∧ sampleState._cols = ((16 : Nat) : Int)
        ∧ sampleState._lines = ((2 : Nat) : Int) ∧ 21 < 256 ∧ 3 < 256)
      ∧ (sampleState._col = 21 ∧ sampleState._row = 3 →
          setCursor sampleState 21 3 = Except.ok sampleState
            ∧ emitted sampleState sampleState = [])
      ∧ (¬ (sampleState._col = 21 ∧ sampleState._row = 3) →
          ∃ offset, [0x00, 0x40, 0x14, 0x54][3 % 2]? = some offset
            ∧ setCursor sampleState 21 3 =
              Except.ok { _send sampleState (0x80 ||| (offset + 21 % 16)) false with
                _col := 21 % 16, _row := 3 % 2 }) :=
  ⟨⟨by decide, by decide, by decide, rfl, rfl, by decide, by decide⟩,
    setCursor_spec sampleState 16 2 21 3 (by decide) (by decide) (by decide) rfl rfl
      (by decide) (by decide)⟩

theorem setCursor_twice_witness :
    (2 ≤ 4 ∧ sampleState._cols = ((16 : Nat) : Int) ∧ sampleState._lines = ((2 : Nat) : Int)
        ∧ 5 < 16 ∧ 1 < 2 ∧ 5 < 256)
      ∧ ∃ s', setCursorTwice sampleState 5 1 = Except.ok s'
        ∧ s'._col = 5 ∧ s'._row = 1
        ∧ (¬ (sampleState._col = 5 ∧ sampleState._row = 1) →
            transactions (emitted sampleState s') = 1
            ∧ ∃ offset, [0x00, 0x40, 0x14, 0x54][1]? = some offset
              ∧ s' = { _send sampleState (0x80 ||| (offset + 5)) false with
                  _col := 5, _row := 1 })
        ∧ (sampleState._col = 5 ∧ sampleState._row = 1 →
            transactions (emitted sampleState s') = 0 ∧ s' = sampleState) :=
  ⟨⟨by decide, rfl, rfl, by decide, by decide, by decide⟩,
    setCursor_twice sampleState 16 2 5 1 (by decide) rfl rfl (by decide) (by decide)
      (by decide)⟩

theorem cursor_in_range_invariant_witness :
    (1 ≤ 16 ∧ 1 ≤ 2 ∧ 2 ≤ 4)
      ∧ (∀ raw : State,
          (begin raw (16 : Nat) (2 : Nat))._cols = ((16 : Nat) : Int)
            ∧ (begin raw (16 : Nat) (2 : Nat))._lines = ((2 : Nat) : Int)
            ∧ cursorInRange (begin raw (16 : Nat) (2 : Nat)))
      ∧ (∀ (fuel : Nat) (op : Op) (s s' : State),
          s._cols = ((16 : Nat) : Int) → s._lines = ((2 : Nat) : Int) → cursorInRange s →
          perform fuel s op = Except.ok s' →
          s'._cols = ((16 : Nat) : Int) ∧ s'._lines = ((2 : Nat) : Int) ∧ cursorInRange s')
      ∧ (∀ (op : Op) (s : State),
          s._cols = ((16 : Nat) : Int) → s._lines = ((2 : Nat) : Int) → cursorInRange s →
          hasResult 16 op → ∃ s', perform 256 s op = Except.ok s') :=
  ⟨⟨by decide, by decide, by decide⟩,
    cursor_in_range_invariant 16 2 (by decide) (by decide) (by decide)⟩

theorem setCursorLCD_total_witness :
    (1 ≤ 16 ∧ 1 ≤ 2 ∧ 2 ≤ 4 ∧ sampleState._cols = ((16 : Nat) : Int)
        ∧ sampleState._lines = ((2 : Nat) : Int))
      ∧ (∃ s', setCursorLCD sampleState 255 255 = Except.ok s')
      ∧ (∀ f, setCursorLCD sampleState 255 255 ≠ Except.error f)
      ∧ sampleState._cols ≠ 0 ∧ sampleState._lines ≠ 0
      ∧ (Int.tmod ((255 % 256 : Nat) : Int) sampleState._lines).toNat % 256
          < row_offsets.length :=
  ⟨⟨by decide, by decide, by decide, rfl, rfl⟩,
    setCursorLCD_total sampleState 16 2 255 255 (by decide) (by decide) (by decide) rfl rfl⟩

theorem write_glyph_witness :
    (2 ≤ 4 ∧ sampleState._cols = ((16 : Nat) : Int) ∧ sampleState._lines = ((2 : Nat) : Int)
        ∧ sampleState._col < 16 ∧ sampleState._row < 2 ∧ 0x48 < 256
        ∧ (0x48 ≠ 0x01 ∧ 0x48 ≠ 0x02 ∧ 0x48 ≠ 0x03 ∧ 0x48 ≠ 0x0A ∧ 0x48 ≠ 0x0D))
      ∧ (sampleState._col + 1 < 16 →
          write 0 sampleState 0x48 =
            Except.ok ({ _send sampleState 0x48 true with _col := sampleState._col + 1 }, 1))
      ∧ (sampleState._col + 1 = 16 →
          ∃ offset, [0x00, 0x40, 0x14, 0x54][(sampleState._row + 1) % 2]? = some offset
            ∧ write 0 sampleState 0x48 =
              Except.ok ({ _send (_send sampleState 0x48 true) (0x80 ||| (offset + 0)) false with
                _col := 0, _row := (sampleState._row + 1) % 2 }, 1))
      ∧ (sampleState._row + 1 = 2 → (sampleState._row + 1) % 2 = 0)
      ∧ (sampleState._col + 1 < 16 ∨ sampleState._col + 1 = 16) :=
  ⟨⟨by decide, rfl, rfl, by decide, by decide, by decide, by decide⟩,
    write_glyph 0 sampleState 16 2 0x48 (by decide) rfl rfl (by decide) (by decide)
      (by decide) (by decide)⟩

theorem home_is_setCursor_origin_witness :
    (¬ (midState._col = 0 ∧ midState._row = 0) ∧ midState._cols ≠ 0 ∧ midState._lines ≠ 0)
      ∧ home midState = Except.ok { _send midState 0x80 false with _col := 0, _row := 0 }
      ∧ emitted midState (_send midState 0x80 false)
          = sendEvents midState.i2cDataState midState._i2cAddr midState._backlight 0x80 false
      ∧ transactions (emitted midState (_send midState 0x80 false)) = 1 :=
  ⟨⟨by decide, by decide, by decide⟩,
    (home_is_setCursor_origin 0 midState).2.2.2.1 (by decide) (by decide) (by decide)⟩

theorem address_map_injective_witness :
    (1 ≤ 16 ∧ 16 ≤ 20 ∧ 1 ≤ 2 ∧ 2 ≤ 4 ∧ sampleState._cols = ((16 : Nat) : Int)
        ∧ sampleState._lines = ((2 : Nat) : Int) ∧ 5 < 16 ∧ 1 < 2 ∧ 3 < 16 ∧ 0 < 2)
      ∧ ∃ o1 o2 : Nat,
        row_offsets[1]? = some o1 ∧ row_offsets[0]? = some o2
          ∧ setCursorLCD sampleState 5 1 =
            Except.ok { _send sampleState (0x80 ||| (o1 + 5)) false with _col := 5, _row := 1 }
          ∧ setCursorLCD sampleState 3 0 =
            Except.ok { _send sampleState (0x80 ||| (o2 + 3)) false with _col := 3, _row := 0 }
          ∧ o1 + 5 < 0x80 ∧ o2 + 3 < 0x80
          ∧ (0x80 ||| (o1 + 5)) &&& 0x7F = o1 + 5
          ∧ (0x80 ||| (o2 + 3)) &&& 0x7F = o2 + 3
          ∧ (0x80 ||| (o1 + 5) = 0x80 ||| (o2 + 3) → 5 = 3 ∧ 1 = 0) :=
  ⟨⟨by decide, by decide, by decide, by decide, rfl, rfl, by decide, by decide, by decide,
      by decide⟩,
    address_map_injective sampleState 16 2 5 1 3 0 (by decide) (by decide) (by decide)
      (by decide) rfl rfl (by decide) (by decide) (by decide) (by decide)⟩

end LiquidCrystal_PCF8574
